import Mathlib

/-!
fake-log-ingester: traffic shaper, pacing and field generators

A shallow embedding of `main.go` and the properties of its per-table loop.

Modelling conventions.

* Go `int` is `Int`.  The only integer addition the properties depend on is
  `percentageGet+percentagePost`; it is modelled with 64-bit wrap-around
  (`wrapInt64`).  Go `/` and `%` on integers are `Int.tdiv` and `Int.tmod`
  (truncated division), and a zero divisor is a run-time panic.
* A `float32` is a value of `F32`: a finite value given by its exact rational,
  an infinity or NaN (the two zeros are identified).  Every `float32`
  operation rounds its exact result to the nearest `float32`, ties to even
  (`F32.round`), and is not fused with another operation.  The conversion
  of a `float32` to `int` or `time.Duration` truncates toward zero; when the
  truncated value does not fit in 64 bits (or the operand is an infinity or
  NaN), Go leaves the result to the implementation, and the value modelled is
  the one of amd64, `-2^63` (`F32.toInt64`).
* The elapsed time is a `float64` number of seconds below `2^63`; it is
  modelled by its exact rational value, and `int(elapsed)` by `intOfFloat`.
* A Go panic is `Except.error`; a normal return is `Except.ok`.
* Every call into the random source (`gofakeit`) takes the value drawn as an
  explicit argument, so the functions below are pure.
* `time.Duration` is a number of nanoseconds.
-/

namespace FakeLogIngester

/-! ## float32 arithmetic -/

/-- A `float32` value: finite (its exact rational value), infinite or NaN. -/
inductive F32 where
  | finite (q : Rat)
  | inf (negative : Bool)
  | nan
deriving DecidableEq

/-- Rounding of a rational to the nearest integer, a tie going to the even
neighbour. -/
def roundHalfEven (y : Rat) : Int :=
  if y - ⌊y⌋ < 1 / 2 then ⌊y⌋
  else if 1 / 2 < y - ⌊y⌋ then ⌊y⌋ + 1
  else if ⌊y⌋ % 2 = 0 then ⌊y⌋ else ⌊y⌋ + 1

/-- Rounding of an exact result to `float32`: 24 significant bits, the
exponent of the leading bit at least -126 (below that the spacing stays
`2^-149`), ties to even, and an infinity when the rounded magnitude reaches
`2^128`. -/
def F32.round (x : Rat) : F32 :=
  if x = 0 then F32.finite 0
  else
    let e := max (Int.log 2 |x|) (-126)
    let r := (roundHalfEven (x / 2 ^ (e - 23)) : Rat) * 2 ^ (e - 23)
    if 2 ^ 128 ≤ |r| then F32.inf (decide (x < 0)) else F32.finite r

/-- The `float32` product `a * b`. -/
def F32.mul : F32 → F32 → F32
  | F32.finite a, F32.finite b => F32.round (a * b)
  | F32.finite a, F32.inf s => if a = 0 then F32.nan else F32.inf (s != decide (a < 0))
  | F32.inf s, F32.finite b => if b = 0 then F32.nan else F32.inf (s != decide (b < 0))
  | F32.inf s, F32.inf t => F32.inf (s != t)
  | _, _ => F32.nan

/-- The `float32` sum `a + b`. -/
def F32.add : F32 → F32 → F32
  | F32.finite a, F32.finite b => F32.round (a + b)
  | F32.finite _, F32.inf s => F32.inf s
  | F32.inf s, F32.finite _ => F32.inf s
  | F32.inf s, F32.inf t => if s = t then F32.inf s else F32.nan
  | _, _ => F32.nan

/-- The `float32` negation `-a`. -/
def F32.neg : F32 → F32
  | F32.finite a => F32.finite (-a)
  | F32.inf s => F32.inf (!s)
  | F32.nan => F32.nan

/-- The `float32` difference `a - b`. -/
def F32.sub (a b : F32) : F32 := F32.add a (F32.neg b)

/-- The `float32` quotient `a / 2`. -/
def F32.half : F32 → F32
  | F32.finite a => F32.round (a / 2)
  | F32.inf s => F32.inf s
  | F32.nan => F32.nan

/-- The `float32` comparison `a == b`; NaN is equal to nothing. -/
def F32.eq : F32 → F32 → Bool
  | F32.finite a, F32.finite b => decide (a = b)
  | F32.inf s, F32.inf t => s == t
  | _, _ => false

/-- The conversion `float32(n)` of an integer. -/
def F32.ofInt (n : Int) : F32 := F32.round n

/-! ## Data model -/

/-- The process configuration `config` (main.go, lines 18-40). -/
structure config where
  Rate : F32
  IPv4Percent : Int
  StatusOkPercent : Int
  PathMinLength : Int
  PathMaxLength : Int
  PercentageGet : Int
  PercentagePost : Int
  PercentagePut : Int
  PercentagePatch : Int
  PercentageDelete : Int
  MinRow : Int
  MaxRow : Int
  TableNum : Int
  BurstMultiplier : F32
  BurstDuration : Int
  CycleDuration : Int
  Host : String
  Database : String
  Port : Int
  Username : String
  Password : String

/-- The values of the `envDefault` tags of `config`. -/
def defaultConfig : config where
  Rate := F32.finite 2
  IPv4Percent := 100
  StatusOkPercent := 80
  PathMinLength := 1
  PathMaxLength := 5
  PercentageGet := 60
  PercentagePost := 30
  PercentagePut := 0
  PercentagePatch := 0
  PercentageDelete := 0
  MinRow := 5
  MaxRow := 100
  TableNum := 10
  BurstMultiplier := F32.finite 10
  BurstDuration := 30
  CycleDuration := 60
  Host := ""
  Database := ""
  Port := 5001
  Username := ""
  Password := ""

/-- The per-table configuration `TableConfig` (main.go, lines 42-49).
`LastStartTime` is a clock reading in nanoseconds. -/
structure TableConfig where
  Name : String
  SteadyRate : F32
  BurstMultiplier : F32
  BurstDuration : Int
  CycleDuration : Int
  LastStartTime : Int

/-- One generated access-log record, the arguments of `tbl.AddRow`. -/
structure LogRow where
  ip : String
  httpMethod : String
  path : String
  httpVersion : String
  statusCode : Int
  bodyBytesSent : Int
  referrer : String
  userAgent : String
  timeLocal : Int
deriving DecidableEq

/-! ## Machine arithmetic -/

/-- Reduction of an integer to the signed 64-bit range, two's complement. -/
def wrapInt64 (x : Int) : Int := (x + 2 ^ 63) % 2 ^ 64 - 2 ^ 63

/-- Go conversion of a floating-point value to an integer type: the fraction
is discarded (truncation toward zero). -/
def intOfFloat (x : Rat) : Int := Int.tdiv x.num x.den

/-- The conversion `int(x)` or `time.Duration(x)` of a `float32`: the truncated
value when it fits in 64 bits, and `-2^63` otherwise. -/
def F32.toInt64 : F32 → Int
  | F32.finite q =>
    if -2 ^ 63 ≤ intOfFloat q ∧ intOfFloat q < 2 ^ 63 then intOfFloat q else -2 ^ 63
  | _ => -2 ^ 63

/-- Go integer remainder `a % b`; panics on a zero divisor. -/
def goMod (a b : Int) : Except String Int :=
  if b = 0 then Except.error "runtime error: integer divide by zero"
  else Except.ok (Int.tmod a b)

/-- Go integer quotient `a / b`; panics on a zero divisor. -/
def goDiv (a b : Int) : Except String Int :=
  if b = 0 then Except.error "runtime error: integer divide by zero"
  else Except.ok (Int.tdiv a b)

/-- One second as a `time.Duration`, in nanoseconds. -/
def Second : Int := 1000000000

/-! ## The random source (gofakeit), with the draw made explicit -/

/-- Model of `gofakeit.Number(min, max)`: equal bounds give the bound, reversed
bounds are swapped, otherwise `min + Intn(max+1-min)`; `draw` is the raw
output of the generator. -/
def Number (min max : Int) (draw : Nat) : Int :=
  if min = max then min
  else if min > max then max + (draw : Int) % (min + 1 - max)
  else min + (draw : Int) % (max + 1 - min)

/-- Model of `gofakeit.Float32Range(min, max)`: equal bounds give the bound,
otherwise `u*(max-min) + min` in `float32` arithmetic, for the unit draw `u`
(the value of `Float32()`, a `float32` in [0, 1)). -/
def Float32Range (min max : F32) (u : F32) : F32 :=
  if F32.eq min max then min else F32.add (F32.mul u (F32.sub max min)) min

/-- Model of `gofakeit.RandomString(a)`: the element at a drawn index, or
the empty string for an empty slice. -/
def RandomString (a : List String) (pick : Nat) : String :=
  a.getD (pick % a.length) ""

/-- The values `gofakeit.HTTPStatusCodeSimple` draws from (gofakeit data
table `http_status_simple`). -/
def httpStatusSimplePool : List Int := [200, 301, 302, 400, 404, 500]

/-! ## Startup (main) -/

/-- The function `checkMinMax` (main.go, lines 232-242) on the pair of
pointed-to values. -/
def checkMinMax (min max : Int) : Int × Int :=
  let min1 := if min < 1 then 1 else min
  let max1 := if max < 1 then 1 else max
  if min1 > max1 then (max1, min1) else (min1, max1)

/-- The normalization `main` performs on the parsed configuration (line 68):
`checkMinMax` on the two path-length fields, and on nothing else. -/
def normalizeConfig (cfg : config) : config :=
  let mm := checkMinMax cfg.PathMinLength cfg.PathMaxLength
  { cfg with PathMinLength := mm.1, PathMaxLength := mm.2 }

/-- The `TableConfig` that `main` builds for table `i` (lines 75-82): `u` is
the unit draw of the multiplier, `dBurst` and `dCycle` the raw draws of the
two durations, `now` the clock reading. -/
def newTableConfig (cfg : config) (i : Int) (u : F32) (dBurst dCycle : Nat)
    (now : Int) : TableConfig where
  Name := "nginx_logs_" ++ toString i
  SteadyRate := cfg.Rate
  BurstMultiplier := Float32Range (F32.half cfg.BurstMultiplier) cfg.BurstMultiplier u
  BurstDuration := Number (Int.tdiv cfg.BurstDuration 2) cfg.BurstDuration dBurst
  CycleDuration := Number (Int.tdiv cfg.CycleDuration 2) cfg.CycleDuration dCycle
  LastStartTime := now

/-! ## Field generators -/

/-- The function `realisticBytesSent` (lines 166-172). -/
def realisticBytesSent (statusCode : Int) (draw : Nat) : Int :=
  if statusCode ≠ 200 then Number 30 120 draw else Number 800 3100 draw

/-- The function `weightedStatusCode` (lines 174-181): `roll` is the value of
`gofakeit.Number(0, 100)`, `fallback` the value of
`gofakeit.HTTPStatusCodeSimple()`. -/
def weightedStatusCode (percentageOk : Int) (roll : Int) (fallback : Int) : Int :=
  if roll ≤ percentageOk then 200 else fallback

/-- The if/else-if chain of `weightedHTTPMethod` (lines 189-199); `none` when
no comparison succeeds and control reaches the final `return`. -/
def methodChain (percentageGet percentagePost percentagePut percentagePatch
    percentageDelete : Int) (roll : Int) : Option String :=
  if roll ≤ percentageGet then some "GET"
  else if roll ≤ percentagePost then some "POST"
  else if roll ≤ percentagePut then some "PUT"
  else if roll ≤ percentagePatch then some "PATCH"
  else if roll ≤ percentageDelete then some "DELETE"
  else none

/-- The function `weightedHTTPMethod` (lines 183-202): `roll` is the value of
`gofakeit.Number(0, 100)`, `fallback` the value of `gofakeit.HTTPMethod()`. -/
def weightedHTTPMethod (percentageGet percentagePost percentagePut percentagePatch
    percentageDelete : Int) (roll : Int) (fallback : String) : Except String String :=
  if wrapInt64 (percentageGet + percentagePost) ≥ 100 then
    Except.error "HTTP method percentages add up to more than 100%"
  else
    Except.ok ((methodChain percentageGet percentagePost percentagePut percentagePatch
      percentageDelete roll).getD fallback)

/-- The function `weightedIPVersion` (lines 204-211): `v4` and `v6` are the
values of `gofakeit.IPv4Address()` and `gofakeit.IPv6Address()`. -/
def weightedIPVersion (percentageIPv4 : Int) (roll : Int) (v4 v6 : String) : String :=
  if roll ≤ percentageIPv4 then v4 else v6

/-- The separators `randomPath` draws from (line 221). -/
def pathSeparators : List String := ["-", "-", "_", "%20", "/", "/", "/"]

/-- The suffixes `randomPath` draws from (line 226). -/
def pathSuffixes : List String :=
  [".hmtl", ".php", ".htm", ".jpg", ".png", ".gif", ".svg", ".css", ".js"]

/-- The call `strings.Replace(s, " ", "%20", -1)`: every space is replaced. -/
def replaceSpaces (s : String) : String :=
  String.mk (s.data.flatMap (fun c => if c = ' ' then "%20".data else [c]))

/-- What the loop of `randomPath` (lines 219-224) has written after `n`
iterations: iteration `i` writes a separator when `i > 0`, then a token. -/
def pathSegments (sepPick : Nat → Nat) (tok : Nat → String) : Nat → String
  | 0 => ""
  | i + 1 =>
    pathSegments sepPick tok i
      ++ (if i > 0 then RandomString pathSeparators (sepPick i) else "")
      ++ tok i

/-- The function `randomPath` (lines 213-230): `lenDraw` is the raw draw of the
segment count, `sepPick i` and `tok i` the separator index and the buzzword
drawn in iteration `i`, `sufPick` the index of the suffix. -/
def randomPath (min max : Int) (lenDraw : Nat) (sepPick : Nat → Nat)
    (tok : Nat → String) (sufPick : Nat) : String :=
  let length := Number min max lenDraw
  replaceSpaces ("/" ++ pathSegments sepPick tok length.toNat
    ++ RandomString pathSuffixes sufPick)

/-! ## The table driver -/

/-- The values the traffic shaper derives at the top of an iteration. -/
structure Shaped where
  log : List String
  currentRate : F32
  maxRow : Int
deriving DecidableEq

/-- Lines 107-113 of `writeTable`: the effective rate and row ceiling for the
elapsed time `elapsed` (seconds, the value of `time.Since(...).Seconds()`). -/
def shape (tableCfg : TableConfig) (cfg : config) (elapsed : Rat) : Except String Shaped := do
  let phaseClock ← goMod (intOfFloat elapsed) tableCfg.CycleDuration
  if phaseClock < tableCfg.BurstDuration then
    pure { log := ["Entering burst mode"]
           currentRate := F32.mul tableCfg.SteadyRate tableCfg.BurstMultiplier
           maxRow := F32.toInt64 (F32.mul (F32.ofInt cfg.MaxRow) tableCfg.BurstMultiplier) }
  else
    pure { log := [], currentRate := tableCfg.SteadyRate, maxRow := cfg.MaxRow }

/-- Line 116 of `writeTable`: `time.Second / time.Duration(currentRate)`. -/
def pacingInterval (currentRate : F32) : Except String Int :=
  goDiv Second (F32.toInt64 currentRate)

/-- The random values consumed while generating one row. -/
structure RowDraws where
  ipRoll : Int
  ipv4 : String
  ipv6 : String
  methodRoll : Int
  methodFallback : String
  pathLen : Nat
  pathSep : Nat → Nat
  pathTok : Nat → String
  pathSuffix : Nat
  statusRoll : Int
  statusFallback : Int
  bytesDraw : Nat
  userAgent : String
  now : Int

/-- The body of the row loop of `writeTable` (lines 143-150). -/
def generateRow (cfg : config) (d : RowDraws) : Except String LogRow := do
  let ip := weightedIPVersion cfg.IPv4Percent d.ipRoll d.ipv4 d.ipv6
  let httpMethod ← weightedHTTPMethod cfg.PercentageGet cfg.PercentagePost cfg.PercentagePut
    cfg.PercentagePatch cfg.PercentageDelete d.methodRoll d.methodFallback
  let path := randomPath cfg.PathMinLength cfg.PathMaxLength d.pathLen d.pathSep d.pathTok
    d.pathSuffix
  let statusCode := weightedStatusCode cfg.StatusOkPercent d.statusRoll d.statusFallback
  let bodyBytesSent := realisticBytesSent statusCode d.bytesDraw
  pure { ip := ip, httpMethod := httpMethod, path := path, httpVersion := "HTTP/1.1"
         statusCode := statusCode, bodyBytesSent := bodyBytesSent, referrer := "-"
         userAgent := d.userAgent, timeLocal := d.now }

/-- The row loop of `writeTable` (lines 142-154) run for `n` iterations:
the rows added to the table, in order; a panic in a row ends the loop. -/
def generateRows (cfg : config) (rowDraws : Nat → RowDraws) : Nat → Except String (List LogRow)
  | 0 => Except.ok []
  | i + 1 => do
    let added ← generateRows cfg rowDraws i
    let row ← generateRow cfg (rowDraws i)
    pure (added ++ [row])

/-- What one iteration of the loop of `writeTable` does when it does not
panic: the log lines, the duration passed to `time.Sleep`, the two bounds
passed to `gofakeit.Number` for the row count, and the batch submitted. -/
structure Iteration where
  log : List String
  interval : Int
  minRows : Int
  maxRows : Int
  batch : List LogRow
deriving DecidableEq

/-- One iteration of the loop of `writeTable` (lines 104-162): `rowsDraw` is
the raw draw of the row count and `rowDraws i` the draws of row `i`. -/
def writeTableIteration (tableCfg : TableConfig) (cfg : config) (elapsed : Rat)
    (rowsDraw : Nat) (rowDraws : Nat → RowDraws) : Except String Iteration := do
  let s ← shape tableCfg cfg elapsed
  let interval ← pacingInterval s.currentRate
  let rows := Number cfg.MinRow s.maxRow rowsDraw
  let batch ← generateRows cfg rowDraws rows.toNat
  pure { log := s.log ++ ["Generating " ++ toString rows ++ " rows for table " ++ tableCfg.Name]
         interval := interval
         minRows := cfg.MinRow
         maxRows := s.maxRow
         batch := batch }

/-- Whether a computation ended in a panic. -/
def panics {α : Type} (r : Except String α) : Bool :=
  match r with
  | Except.error _ => true
  | Except.ok _ => false

/-- The values `gofakeit.Number(0, 100)` can return: 0, 1, ..., 100. -/
def rollRange : List Int := (List.range 101).map Int.ofNat

/-- The number of rolls in 0..100 for which the threshold chain of
`weightedHTTPMethod` returns the method `m`. -/
def chainCount (percentageGet percentagePost percentagePut percentagePatch
    percentageDelete : Int) (m : String) : Nat :=
  (rollRange.filter (fun roll => methodChain percentageGet percentagePost percentagePut
    percentagePatch percentageDelete roll = some m)).length

/-! ## Concrete configurations used below -/

/-- The table built for configuration `cfg` when the duration draws give the
configured maxima and the multiplier draw is 0 (the lower end of its range). -/
def firstTable (cfg : config) : TableConfig := newTableConfig cfg 0 (F32.finite 0) 15 30 0

/-- The first table of the default configuration: burst 30 s, cycle 60 s,
multiplier 5. -/
def defaultTable : TableConfig := firstTable defaultConfig

/-- The `float32` nearest to 9.74, which is 10213130 / 2^20. -/
def nearTen : Rat := 10213130 / 1048576

/-- A table of the default configuration whose multiplier draw is
15904800 / 2^24 (about 0.948): burst 30 s, cycle 60 s, multiplier `nearTen`. -/
def nearTenTable : TableConfig :=
  newTableConfig defaultConfig 0 (F32.finite (15904800 / 16777216)) 15 30 0

/-- The `float32` nearest to 7/3, which is 9786709 / 2^22. -/
def nearSevenThirds : Rat := 9786709 / 4194304

/-- A table with the steady rate 3 and the multiplier `nearSevenThirds`,
burst 30 s, cycle 60 s. -/
def roundingRateTable : TableConfig where
  Name := "nginx_logs_0"
  SteadyRate := F32.finite 3
  BurstMultiplier := F32.finite nearSevenThirds
  BurstDuration := 30
  CycleDuration := 60
  LastStartTime := 0

/-- The default configuration with `RATE=2.5`. -/
def fractionalRateConfig : config := { defaultConfig with Rate := F32.finite (5 / 2) }

/-- The default configuration with `RATE=0.5`. -/
def slowRateConfig : config := { defaultConfig with Rate := F32.finite (1 / 2) }

/-- The default configuration with `RATE=-2`. -/
def negativeRateConfig : config := { defaultConfig with Rate := F32.finite (-2) }

/-- The default configuration with `RATE=0`. -/
def zeroRateConfig : config := { defaultConfig with Rate := F32.finite 0 }

/-- The default configuration with `MIN_ROW=5` and `MAX_ROW=3`. -/
def reversedRowsConfig : config := { defaultConfig with MinRow := 5, MaxRow := 3 }

/-- The default configuration with `MIN_ROW=60` and `BURST_MULTIPLIER=1`; its
first table has the multiplier 1/2. -/
def shrinkingBurstConfig : config :=
  { defaultConfig with MinRow := 60, BurstMultiplier := F32.finite 1 }

/-- A configuration with a negative `MAX_ROW` and `BURST_MULTIPLIER=1`; its
first table has the multiplier 1/2. -/
def negativeMaxRowConfig : config :=
  { defaultConfig with MaxRow := -3, BurstMultiplier := F32.finite 1 }

/-- The buzzwords of a three-segment path. -/
def sampleTokens (i : Nat) : String :=
  if i = 0 then "big data" else if i = 1 then "cloud" else "edge"

/-- Draws for one row: every roll is 50, the path has the single token
"cloud", the fallbacks are "HEAD" and 404. -/
def sampleRowDraws : RowDraws where
  ipRoll := 50
  ipv4 := "192.0.2.1"
  ipv6 := "2001:db8::1"
  methodRoll := 50
  methodFallback := "HEAD"
  pathLen := 0
  pathSep := fun _ => 0
  pathTok := fun _ => "cloud"
  pathSuffix := 0
  statusRoll := 50
  statusFallback := 404
  bytesDraw := 0
  userAgent := "agent"
  now := 0

/-! ## Helper lemmas: float32 rounding -/

theorem roundHalfEven_intCast (k : Int) : roundHalfEven (k : Rat) = k := by
  unfold roundHalfEven
  rw [Int.floor_intCast, if_pos (by norm_num)]

theorem floor_le_roundHalfEven (y : Rat) : ⌊y⌋ ≤ roundHalfEven y := by
  unfold roundHalfEven
  split_ifs <;> omega

theorem roundHalfEven_le_floor_add_one (y : Rat) : roundHalfEven y ≤ ⌊y⌋ + 1 := by
  unfold roundHalfEven
  split_ifs <;> omega

theorem le_roundHalfEven (k : Int) (y : Rat) (h : (k : Rat) ≤ y) : k ≤ roundHalfEven y :=
  le_trans (Int.le_floor.mpr h) (floor_le_roundHalfEven y)

theorem roundHalfEven_le_add_one (y : Rat) : (roundHalfEven y : Rat) ≤ y + 1 := by
  have h1 : ((roundHalfEven y : Int) : Rat) ≤ ((⌊y⌋ + 1 : Int) : Rat) := by
    exact_mod_cast roundHalfEven_le_floor_add_one y
  have h2 := Int.floor_le y
  push_cast at h1
  linarith

theorem log_two_eq (x : Rat) (e : Int) (h1 : (2 : Rat) ^ e ≤ x) (h2 : x < 2 ^ (e + 1)) :
    Int.log 2 x = e := by
  have hx : 0 < x := lt_of_lt_of_le (by positivity) h1
  have ha : e ≤ Int.log 2 x := (Int.zpow_le_iff_le_log (by decide) hx).mp (by simpa using h1)
  have hb : Int.log 2 x < e + 1 := (Int.lt_zpow_iff_log_lt (by decide) hx).mp (by simpa using h2)
  omega

theorem F32.round_zero : F32.round 0 = F32.finite 0 := by
  simp [F32.round]

theorem F32.round_eq_of_exponent (x : Rat) (e : Int) (he : -126 ≤ e)
    (h1 : (2 : Rat) ^ e ≤ |x|) (h2 : |x| < 2 ^ (e + 1))
    (hr : |(roundHalfEven (x / 2 ^ (e - 23)) : Rat) * 2 ^ (e - 23)| < 2 ^ 128) :
    F32.round x = F32.finite ((roundHalfEven (x / 2 ^ (e - 23)) : Rat) * 2 ^ (e - 23)) := by
  have hx : x ≠ 0 := by
    intro h0
    rw [h0, abs_zero] at h1
    exact absurd h1 (not_le.mpr (by positivity))
  unfold F32.round
  rw [if_neg hx]
  simp only [log_two_eq |x| e h1 h2, max_eq_left he]
  rw [if_neg (not_le.mpr hr)]

theorem zpow_sub_23 (e : Int) : (2 : Rat) ^ (e - 23) = 2 ^ e / 8388608 := by
  rw [zpow_sub₀ (by norm_num : (2 : Rat) ≠ 0)]
  norm_num

theorem zpow_toNat (e : Int) (he : 0 ≤ e) : (2 : Rat) ^ e = ((2 ^ e.toNat : Nat) : Rat) := by
  have h : e = (e.toNat : Int) := (Int.toNat_of_nonneg he).symm
  conv_lhs => rw [h]
  rw [zpow_natCast]
  push_cast
  rfl

theorem F32.round_intCast (n : Int) (h : |n| ≤ 2 ^ 24) : F32.round (n : Rat) = F32.finite n := by
  by_cases hn : n = 0
  · subst hn
    simp [F32.round]
  have hx : (0 : Rat) < |(n : Rat)| := abs_pos.mpr (by exact_mod_cast hn)
  have hge : (1 : Rat) ≤ |(n : Rat)| := by
    have : 1 ≤ |n| := Int.one_le_abs hn
    exact_mod_cast this
  have hle : |(n : Rat)| ≤ 2 ^ 24 := by exact_mod_cast h
  have h1 := Int.zpow_log_le_self (b := 2) (by decide) hx
  have h2 := Int.lt_zpow_succ_log_self (b := 2) (by decide) |(n : Rat)|
  have e0 : 0 ≤ Int.log 2 |(n : Rat)| :=
    (Int.zpow_le_iff_le_log (by decide) hx).mp (by simpa using hge)
  have e24 : Int.log 2 |(n : Rat)| < 25 :=
    (Int.lt_zpow_iff_log_lt (by decide) hx).mp (lt_of_le_of_lt hle (by norm_num))
  generalize Int.log 2 |(n : Rat)| = e at h1 h2 e0 e24
  simp only [Nat.cast_ofNat] at h1 h2
  have key : ((roundHalfEven ((n : Rat) / 2 ^ (e - 23)) : Int) : Rat) * 2 ^ (e - 23) = n := by
    have hm : ∃ m : Int, (n : Rat) / 2 ^ (e - 23) = (m : Rat) := by
      by_cases he : e ≤ 23
      · refine ⟨n * 2 ^ (23 - e).toNat, ?_⟩
        have hz : (2 : Rat) ^ (e - 23) = (2 ^ (23 - e))⁻¹ := by
          rw [← zpow_neg]; congr 1; omega
        rw [hz, zpow_toNat (23 - e) (by omega)]
        push_cast
        field_simp
      · have he24 : e = 24 := by omega
        subst he24
        have habs : |n| = 2 ^ 24 := by
          have : (2 : Int) ^ 24 ≤ |n| := by
            have h1c := h1
            norm_num at h1c
            have h1' : ((2 ^ 24 : Int) : Rat) ≤ ((|n| : Int) : Rat) := by
              push_cast
              exact h1c
            exact_mod_cast h1'
          omega
        rcases abs_cases n with ⟨hc, _⟩ | ⟨hc, _⟩
        · refine ⟨2 ^ 23, ?_⟩
          have : n = 2 ^ 24 := by omega
          subst this
          norm_num
        · refine ⟨-2 ^ 23, ?_⟩
          have : n = -2 ^ 24 := by omega
          subst this
          norm_num
    obtain ⟨m, hm⟩ := hm
    rw [hm, roundHalfEven_intCast, ← hm]
    field_simp
  rw [F32.round_eq_of_exponent (n : Rat) e (by omega) h1 h2
    (by rw [key]; exact lt_of_le_of_lt hle (by norm_num)), key]

theorem F32.round_scaled_ge (N : Int) (m : Rat) (hN1 : 1 ≤ N) (hN : N ≤ 2 ^ 24) (hm : 1 ≤ m)
    (hx : (N : Rat) * m < 2 ^ 62) :
    ∃ r : Rat, F32.round ((N : Rat) * m) = F32.finite r ∧ (N : Rat) ≤ r ∧ r < 2 ^ 63 := by
  have hNq : (1 : Rat) ≤ (N : Rat) := by exact_mod_cast hN1
  have hNle : (N : Rat) ≤ 2 ^ 24 := by exact_mod_cast hN
  have hxN : (N : Rat) ≤ (N : Rat) * m := le_mul_of_one_le_right (by linarith) hm
  have hx1 : (1 : Rat) ≤ (N : Rat) * m := le_trans hNq hxN
  have hpos : (0 : Rat) < (N : Rat) * m := by linarith
  have habs : |(N : Rat) * m| = (N : Rat) * m := abs_of_pos hpos
  have h1 := Int.zpow_log_le_self (b := 2) (by decide) hpos
  have h2 := Int.lt_zpow_succ_log_self (b := 2) (by decide) ((N : Rat) * m)
  have e0 : 0 ≤ Int.log 2 ((N : Rat) * m) :=
    (Int.zpow_le_iff_le_log (by decide) hpos).mp (by simpa using hx1)
  generalize Int.log 2 ((N : Rat) * m) = e at h1 h2 e0
  generalize (N : Rat) * m = x at *
  simp only [Nat.cast_ofNat] at h1 h2
  have hP : (0 : Rat) < 2 ^ e := by positivity
  have hu := zpow_sub_23 e
  have hupos : (0 : Rat) < 2 ^ (e - 23) := by positivity
  have hule : (2 : Rat) ^ (e - 23) ≤ 2 ^ e := by rw [hu]; linarith
  have hup : ((roundHalfEven (x / 2 ^ (e - 23)) : Int) : Rat) * 2 ^ (e - 23)
      ≤ x + 2 ^ (e - 23) := by
    have := roundHalfEven_le_add_one (x / 2 ^ (e - 23))
    calc ((roundHalfEven (x / 2 ^ (e - 23)) : Int) : Rat) * 2 ^ (e - 23)
        ≤ (x / 2 ^ (e - 23) + 1) * 2 ^ (e - 23) := mul_le_mul_of_nonneg_right this hupos.le
      _ = x + 2 ^ (e - 23) := by field_simp
  have hlow : (N : Rat) ≤ ((roundHalfEven (x / 2 ^ (e - 23)) : Int) : Rat) * 2 ^ (e - 23) := by
    by_cases he : e ≤ 23
    · have hz : (2 : Rat) ^ (e - 23) = (2 ^ (23 - e))⁻¹ := by
        rw [← zpow_neg]; congr 1; omega
      have hK : ((N * 2 ^ (23 - e).toNat : Int) : Rat) ≤ x / 2 ^ (e - 23) := by
        rw [hz, zpow_toNat (23 - e) (by omega)]
        push_cast
        rw [div_inv_eq_mul]
        exact mul_le_mul_of_nonneg_right hxN (by positivity)
      have hk := le_roundHalfEven _ _ hK
      have hk' : ((N * 2 ^ (23 - e).toNat : Int) : Rat)
          ≤ ((roundHalfEven (x / 2 ^ (e - 23)) : Int) : Rat) := by exact_mod_cast hk
      calc (N : Rat) = ((N * 2 ^ (23 - e).toNat : Int) : Rat) * 2 ^ (e - 23) := by
            rw [hz, zpow_toNat (23 - e) (by omega)]
            push_cast
            field_simp
        _ ≤ _ := mul_le_mul_of_nonneg_right hk' hupos.le
    · have hK : ((2 ^ 23 : Int) : Rat) ≤ x / 2 ^ (e - 23) := by
        rw [le_div_iff₀ hupos, hu]
        push_cast
        have : (8388608 : Rat) * (2 ^ e / 8388608) = 2 ^ e := by field_simp
        norm_num
        linarith
      have hk := le_roundHalfEven _ _ hK
      have hk' : ((2 ^ 23 : Int) : Rat)
          ≤ ((roundHalfEven (x / 2 ^ (e - 23)) : Int) : Rat) := by exact_mod_cast hk
      have h24 : (2 : Rat) ^ (24 : Nat) ≤ 2 ^ e := by
        rw [← zpow_natCast]
        exact zpow_le_zpow_right₀ (by norm_num) (by omega)
      calc (N : Rat) ≤ 2 ^ 24 := hNle
        _ ≤ 2 ^ e := h24
        _ = ((2 ^ 23 : Int) : Rat) * 2 ^ (e - 23) := by rw [hu]; push_cast; field_simp
        _ ≤ _ := mul_le_mul_of_nonneg_right hk' hupos.le
  have hr63 : ((roundHalfEven (x / 2 ^ (e - 23)) : Int) : Rat) * 2 ^ (e - 23) < 2 ^ 63 := by
    have : x + 2 ^ (e - 23) ≤ 2 * x := by linarith
    have h62 : (2 : Rat) * x < 2 ^ 63 := by
      have : (2 : Rat) ^ 63 = 2 * 2 ^ 62 := by norm_num
      linarith
    linarith
  refine ⟨_, ?_, hlow, hr63⟩
  apply F32.round_eq_of_exponent x e (by omega) (by rwa [habs]) (by rwa [habs])
  rw [abs_of_nonneg (by linarith)]
  exact lt_trans hr63 (by norm_num)

/-! ## Helper lemmas: conversions and monads -/

theorem ok_bind {α β : Type} (a : α) (f : α → Except String β) :
    (Except.ok a >>= f) = f a := rfl

theorem error_bind {α β : Type} (e : String) (f : α → Except String β) :
    ((Except.error e : Except String α) >>= f) = Except.error e := rfl

theorem intOfFloat_of_nonneg (x : Rat) (h : 0 ≤ x) : intOfFloat x = ⌊x⌋ := by
  unfold intOfFloat
  rw [Rat.floor_def, Int.tdiv_eq_ediv (Rat.num_nonneg.mpr h) (Int.ofNat_nonneg _)]

theorem intOfFloat_neg (x : Rat) : intOfFloat (-x) = - intOfFloat x := by
  unfold intOfFloat
  rw [Rat.neg_num, Rat.neg_den, Int.neg_tdiv]

theorem intOfFloat_of_nonpos (x : Rat) (h : x ≤ 0) : intOfFloat x = ⌈x⌉ := by
  have h1 : intOfFloat (-x) = ⌊-x⌋ := intOfFloat_of_nonneg (-x) (by linarith)
  rw [intOfFloat_neg, Int.floor_neg] at h1
  linarith

theorem intOfFloat_intCast (n : Int) : intOfFloat (n : Rat) = n := by
  simp [intOfFloat]

theorem F32.toInt64_finite (q : Rat) :
    F32.toInt64 (F32.finite q)
      = if -2 ^ 63 ≤ intOfFloat q ∧ intOfFloat q < 2 ^ 63 then intOfFloat q else -2 ^ 63 := rfl

theorem F32.toInt64_intCast (n : Int) (hlo : -2 ^ 63 ≤ n) (hhi : n < 2 ^ 63) :
    F32.toInt64 (F32.finite (n : Rat)) = n := by
  rw [F32.toInt64_finite, intOfFloat_intCast, if_pos ⟨hlo, hhi⟩]

theorem F32.mul_intCast (a b : Int) (h : |a * b| ≤ 2 ^ 24) :
    F32.mul (F32.finite (a : Rat)) (F32.finite (b : Rat)) = F32.finite ((a * b : Int) : Rat) := by
  show F32.round ((a : Rat) * (b : Rat)) = _
  rw [← Int.cast_mul]
  exact F32.round_intCast _ h

theorem round_one_half : F32.round (1 / 2) = F32.finite (1 / 2) := by
  rw [F32.round_eq_of_exponent _ (-1) (by norm_num) (by norm_num [abs_of_nonneg])
    (by norm_num [abs_of_nonneg])]
  · norm_num [roundHalfEven]
  · norm_num [roundHalfEven, abs_of_nonneg]

theorem Float32Range_eval (lo hi u d p : Rat) (hne : lo ≠ hi)
    (h1 : F32.round (hi + -lo) = F32.finite d) (h2 : F32.round (u * d) = F32.finite p) :
    Float32Range (F32.finite lo) (F32.finite hi) (F32.finite u) = F32.round (p + lo) := by
  have he : F32.eq (F32.finite lo) (F32.finite hi) = false := by
    simp [F32.eq, hne]
  have hs : F32.sub (F32.finite hi) (F32.finite lo) = F32.finite d := h1
  have hm : F32.mul (F32.finite u) (F32.finite d) = F32.finite p := h2
  unfold Float32Range
  rw [he, hs, hm]
  rfl

theorem round_five : F32.round 5 = F32.finite 5 := by
  simpa using F32.round_intCast 5 (by norm_num)

theorem half_ten : F32.half (F32.finite 10) = F32.finite 5 := by
  show F32.round (10 / 2) = _
  rw [show (10 : Rat) / 2 = 5 by norm_num]
  exact round_five

theorem round_ten_sub_five : F32.round (10 + -5) = F32.finite 5 := by
  rw [show (10 : Rat) + -5 = 5 by norm_num]
  exact round_five

theorem firstTable_multiplier_ten (cfg : config) (h : cfg.BurstMultiplier = F32.finite 10) :
    (firstTable cfg).BurstMultiplier = F32.finite 5 := by
  have hh := half_ten
  show Float32Range (F32.half cfg.BurstMultiplier) cfg.BurstMultiplier (F32.finite 0) = _
  rw [h, hh, Float32Range_eval 5 10 0 5 0 (by norm_num)
    round_ten_sub_five (by simpa using F32.round_zero)]
  simpa using round_five

theorem firstTable_multiplier_one (cfg : config) (h : cfg.BurstMultiplier = F32.finite 1) :
    (firstTable cfg).BurstMultiplier = F32.finite (1 / 2) := by
  have hh : F32.half (F32.finite 1) = F32.finite (1 / 2) := round_one_half
  show Float32Range (F32.half cfg.BurstMultiplier) cfg.BurstMultiplier (F32.finite 0) = _
  rw [h, hh, Float32Range_eval (1 / 2) 1 0 (1 / 2) 0 (by norm_num)
    (by norm_num; exact round_one_half) (by simpa using F32.round_zero)]
  simpa using round_one_half

theorem nearTenTable_multiplier : nearTenTable.BurstMultiplier = F32.finite nearTen := by
  have hh := half_ten
  have hp : F32.round ((15904800 / 16777216 : Rat) * 5) = F32.finite (79524000 / 16777216) := by
    rw [F32.round_eq_of_exponent _ 2 (by norm_num) (by norm_num [abs_of_nonneg])
      (by norm_num [abs_of_nonneg])]
    · norm_num [roundHalfEven]
    · norm_num [roundHalfEven, abs_of_nonneg]
  show Float32Range (F32.half (F32.finite 10)) (F32.finite 10)
    (F32.finite (15904800 / 16777216)) = _
  rw [hh, Float32Range_eval 5 10 (15904800 / 16777216) 5 (79524000 / 16777216) (by norm_num)
    round_ten_sub_five hp]
  rw [F32.round_eq_of_exponent _ 3 (by norm_num) (by norm_num [abs_of_nonneg])
    (by norm_num [abs_of_nonneg])]
  · norm_num [roundHalfEven, nearTen]
  · norm_num [roundHalfEven, abs_of_nonneg]

theorem mul_hundred_nearTen :
    F32.mul (F32.ofInt 100) (F32.finite nearTen) = F32.finite 974 := by
  have h100 : F32.ofInt 100 = F32.finite 100 := by
    simpa [F32.ofInt] using F32.round_intCast 100 (by norm_num)
  rw [h100]
  show F32.round (100 * nearTen) = _
  unfold nearTen
  rw [F32.round_eq_of_exponent _ 9 (by norm_num) (by norm_num [abs_of_nonneg])
    (by norm_num [abs_of_nonneg])]
  · norm_num [roundHalfEven]
  · norm_num [roundHalfEven, abs_of_nonneg]

theorem mul_two_nearTen :
    F32.mul (F32.finite 2) (F32.finite nearTen) = F32.finite (2 * nearTen) := by
  show F32.round (2 * nearTen) = _
  unfold nearTen
  rw [F32.round_eq_of_exponent _ 4 (by norm_num) (by norm_num [abs_of_nonneg])
    (by norm_num [abs_of_nonneg])]
  · norm_num [roundHalfEven]
  · norm_num [roundHalfEven, abs_of_nonneg]

theorem mul_three_nearSevenThirds :
    F32.mul (F32.finite 3) (F32.finite nearSevenThirds) = F32.finite 7 := by
  show F32.round (3 * nearSevenThirds) = _
  unfold nearSevenThirds
  rw [F32.round_eq_of_exponent _ 2 (by norm_num) (by norm_num [abs_of_nonneg])
    (by norm_num [abs_of_nonneg])]
  · norm_num [roundHalfEven]
  · norm_num [roundHalfEven, abs_of_nonneg]

theorem mul_hundred_nearSevenThirds :
    F32.mul (F32.ofInt 100) (F32.finite nearSevenThirds) = F32.finite (15291733 / 65536) := by
  have h100 : F32.ofInt 100 = F32.finite 100 := by
    simpa [F32.ofInt] using F32.round_intCast 100 (by norm_num)
  rw [h100]
  show F32.round (100 * nearSevenThirds) = _
  unfold nearSevenThirds
  rw [F32.round_eq_of_exponent _ 7 (by norm_num) (by norm_num [abs_of_nonneg])
    (by norm_num [abs_of_nonneg])]
  · norm_num [roundHalfEven]
  · norm_num [roundHalfEven, abs_of_nonneg]

theorem mul_neg_three_half :
    F32.mul (F32.ofInt (-3)) (F32.finite (1 / 2)) = F32.finite (-3 / 2) := by
  have h3 : F32.ofInt (-3) = F32.finite (-3) := by
    simpa [F32.ofInt] using F32.round_intCast (-3) (by norm_num)
  rw [h3]
  show F32.round (-3 * (1 / 2)) = _
  rw [F32.round_eq_of_exponent _ 0 (by norm_num) (by norm_num [abs_of_nonneg])
    (by norm_num [abs_of_nonneg])]
  · norm_num [roundHalfEven]
  · norm_num [roundHalfEven, abs_of_nonneg]

theorem toInt64_eval_233 : F32.toInt64 (F32.finite (15291733 / 65536)) = 233 := by
  rw [F32.toInt64_finite]
  norm_num [intOfFloat]
  decide

theorem toInt64_eval_neg : F32.toInt64 (F32.finite (-3 / 2)) = -1 := by
  rw [F32.toInt64_finite]
  norm_num [intOfFloat]
  decide
/-! ## Helper lemmas: the shaping step -/

theorem shape_of_cycle_ne_zero (tableCfg : TableConfig) (cfg : config) (elapsed : Rat)
    (hne : tableCfg.CycleDuration ≠ 0) :
    shape tableCfg cfg elapsed = Except.ok
      (if Int.tmod (intOfFloat elapsed) tableCfg.CycleDuration < tableCfg.BurstDuration then
        { log := ["Entering burst mode"]
          currentRate := F32.mul tableCfg.SteadyRate tableCfg.BurstMultiplier
          maxRow := F32.toInt64 (F32.mul (F32.ofInt cfg.MaxRow) tableCfg.BurstMultiplier) }
      else { log := [], currentRate := tableCfg.SteadyRate, maxRow := cfg.MaxRow }) := by
  unfold shape goMod
  rw [if_neg hne]
  by_cases hb : Int.tmod (intOfFloat elapsed) tableCfg.CycleDuration < tableCfg.BurstDuration
  · rw [ok_bind, if_pos hb, if_pos hb]; rfl
  · rw [ok_bind, if_neg hb, if_neg hb]; rfl

theorem intOfFloat_ten : intOfFloat 10 = 10 := by
  norm_num [intOfFloat]

theorem intOfFloat_fortyFive : intOfFloat 45 = 45 := by
  norm_num [intOfFloat]

theorem shape_burst_at_10 (tableCfg : TableConfig) (cfg : config)
    (hc : tableCfg.CycleDuration = 60) (hb : tableCfg.BurstDuration = 30) :
    shape tableCfg cfg 10 = Except.ok
      { log := ["Entering burst mode"]
        currentRate := F32.mul tableCfg.SteadyRate tableCfg.BurstMultiplier
        maxRow := F32.toInt64 (F32.mul (F32.ofInt cfg.MaxRow) tableCfg.BurstMultiplier) } := by
  rw [shape_of_cycle_ne_zero tableCfg cfg 10 (by rw [hc]; decide), hc, hb, intOfFloat_ten,
    if_pos (by decide)]

theorem shape_steady_at_45 (tableCfg : TableConfig) (cfg : config)
    (hc : tableCfg.CycleDuration = 60) (hb : tableCfg.BurstDuration = 30) :
    shape tableCfg cfg 45 = Except.ok
      { log := [], currentRate := tableCfg.SteadyRate, maxRow := cfg.MaxRow } := by
  rw [shape_of_cycle_ne_zero tableCfg cfg 45 (by rw [hc]; decide), hc, hb, intOfFloat_fortyFive,
    if_neg (by decide)]

theorem burst_condition_at_10 (tableCfg : TableConfig)
    (hc : tableCfg.CycleDuration = 60) (hb : tableCfg.BurstDuration = 30) :
    Int.tmod (intOfFloat 10) tableCfg.CycleDuration < tableCfg.BurstDuration := by
  rw [hc, hb, intOfFloat_ten]
  decide

theorem steady_condition_at_45 (tableCfg : TableConfig)
    (hc : tableCfg.CycleDuration = 60) (hb : tableCfg.BurstDuration = 30) :
    ¬ Int.tmod (intOfFloat 45) tableCfg.CycleDuration < tableCfg.BurstDuration := by
  rw [hc, hb, intOfFloat_fortyFive]
  decide

/-! ## Traffic shaper -/

/-- C1. For every elapsed time `elapsed ≥ 0` and every table with
`CycleDuration ≥ 1`, the shaping step of `writeTable` returns, and it takes the
burst branch (the one that logs "Entering burst mode") if and only if
`floor(elapsed) mod CycleDuration < BurstDuration`, the steady branch (no log
line) otherwise. -/
theorem shape_phase_rule (tableCfg : TableConfig) (cfg : config) (elapsed : Rat)
    (h0 : 0 ≤ elapsed) (hc : 1 ≤ tableCfg.CycleDuration) :
    ∃ s, shape tableCfg cfg elapsed = Except.ok s ∧
      (s.log = ["Entering burst mode"] ↔
        ⌊elapsed⌋ % tableCfg.CycleDuration < tableCfg.BurstDuration) ∧
      (s.log = [] ↔ ¬ ⌊elapsed⌋ % tableCfg.CycleDuration < tableCfg.BurstDuration) := by
  have hne : tableCfg.CycleDuration ≠ 0 := by omega
  have hfl : 0 ≤ ⌊elapsed⌋ := Int.floor_nonneg.mpr h0
  have hm : Int.tmod (intOfFloat elapsed) tableCfg.CycleDuration
      = ⌊elapsed⌋ % tableCfg.CycleDuration := by
    rw [intOfFloat_of_nonneg elapsed h0, Int.tmod_eq_emod hfl (by omega)]
  refine ⟨_, shape_of_cycle_ne_zero tableCfg cfg elapsed hne, ?_⟩
  rw [hm]
  by_cases hb : ⌊elapsed⌋ % tableCfg.CycleDuration < tableCfg.BurstDuration
  · simp [hb]
  · simp [hb]

/-- C1, witness: with `CycleDuration = 60` and `BurstDuration = 30` the table is
in burst phase at `elapsed = 10` and in steady phase at `elapsed = 45`. -/
theorem shape_phase_rule_witness :
    (defaultTable.CycleDuration = 60 ∧ defaultTable.BurstDuration = 30) ∧
    (∃ s, shape defaultTable defaultConfig 10 = Except.ok s ∧
      (s.log = ["Entering burst mode"] ↔
        ⌊(10 : Rat)⌋ % defaultTable.CycleDuration < defaultTable.BurstDuration) ∧
      (s.log = [] ↔
        ¬ ⌊(10 : Rat)⌋ % defaultTable.CycleDuration < defaultTable.BurstDuration)) ∧
    (∃ s, shape defaultTable defaultConfig 45 = Except.ok s ∧
      (s.log = ["Entering burst mode"] ↔
        ⌊(45 : Rat)⌋ % defaultTable.CycleDuration < defaultTable.BurstDuration) ∧
      (s.log = [] ↔
        ¬ ⌊(45 : Rat)⌋ % defaultTable.CycleDuration < defaultTable.BurstDuration)) ∧
    ⌊(10 : Rat)⌋ % (60 : Int) < 30 ∧ ¬ ⌊(45 : Rat)⌋ % (60 : Int) < 30 :=
  ⟨⟨by decide, by decide⟩,
   shape_phase_rule defaultTable defaultConfig 10 (by norm_num) (by decide),
   shape_phase_rule defaultTable defaultConfig 45 (by norm_num) (by decide),
   by norm_num, by norm_num⟩

/-- C2, as amended. For every table with a non-zero cycle and every
configuration the shaping step returns.  In burst phase it logs "Entering
burst mode", the effective rate is the `float32` product
`SteadyRate * BurstMultiplier` (the exact product rounded to the nearest
`float32`) and the effective max-row-count is the `float32` product
`float32(MaxRow) * BurstMultiplier` converted to `int`: when that product is
finite and within the 64-bit range it is truncated toward zero, which is its
floor when it is non-negative and its ceiling when it is negative.  In steady
phase nothing is logged, the effective rate is `SteadyRate` and the effective
max-row-count is `MaxRow`, unchanged. -/
theorem shape_effective_values (tableCfg : TableConfig) (cfg : config) (elapsed : Rat)
    (hne : tableCfg.CycleDuration ≠ 0) :
    ∃ s, shape tableCfg cfg elapsed = Except.ok s ∧
      (Int.tmod (intOfFloat elapsed) tableCfg.CycleDuration < tableCfg.BurstDuration →
        s.log = ["Entering burst mode"] ∧
        s.currentRate = F32.mul tableCfg.SteadyRate tableCfg.BurstMultiplier ∧
        s.maxRow = F32.toInt64 (F32.mul (F32.ofInt cfg.MaxRow) tableCfg.BurstMultiplier) ∧
        (∀ q : Rat, F32.mul (F32.ofInt cfg.MaxRow) tableCfg.BurstMultiplier = F32.finite q →
          -2 ^ 63 ≤ q → q < 2 ^ 63 → s.maxRow = if 0 ≤ q then ⌊q⌋ else ⌈q⌉)) ∧
      (¬ Int.tmod (intOfFloat elapsed) tableCfg.CycleDuration < tableCfg.BurstDuration →
        s.log = [] ∧ s.currentRate = tableCfg.SteadyRate ∧ s.maxRow = cfg.MaxRow) := by
  refine ⟨_, shape_of_cycle_ne_zero tableCfg cfg elapsed hne, ?_, ?_⟩
  · intro hb
    rw [if_pos hb]
    refine ⟨rfl, rfl, rfl, fun q hq hlo hhi => ?_⟩
    show F32.toInt64 (F32.mul (F32.ofInt cfg.MaxRow) tableCfg.BurstMultiplier) = _
    rw [hq, F32.toInt64_finite]
    by_cases h0 : 0 ≤ q
    · have hf : intOfFloat q = ⌊q⌋ := intOfFloat_of_nonneg q h0
      have h1 : (0 : Int) ≤ ⌊q⌋ := Int.floor_nonneg.mpr h0
      have h2 : ⌊q⌋ < 2 ^ 63 := Int.floor_lt.mpr (by exact_mod_cast hhi)
      rw [hf, if_pos ⟨by omega, h2⟩, if_pos h0]
    · have hc : intOfFloat q = ⌈q⌉ := intOfFloat_of_nonpos q (le_of_lt (not_le.mp h0))
      have h1 : ⌈q⌉ ≤ 0 := Int.ceil_le.mpr (by exact_mod_cast le_of_lt (not_le.mp h0))
      have h2 : -2 ^ 63 ≤ ⌈q⌉ := by
        have : ((-2 ^ 63 : Int) : Rat) ≤ q := by exact_mod_cast hlo
        exact Int.le_ceil_iff.mpr (by linarith)
      rw [hc, if_pos ⟨h2, by omega⟩, if_neg h0]
  · intro hb
    rw [if_neg hb]
    exact ⟨rfl, rfl, rfl⟩
theorem shaped_eq (s : Shaped) (l : List String) (r : F32) (m : Int)
    (h1 : s.log = l) (h2 : s.currentRate = r) (h3 : s.maxRow = m) :
    s = { log := l, currentRate := r, maxRow := m } := by
  cases s
  simp only [Shaped.mk.injEq]
  exact ⟨h1, h2, h3⟩

theorem nearTen_rate :
    F32.mul nearTenTable.SteadyRate nearTenTable.BurstMultiplier = F32.finite (2 * nearTen) := by
  rw [nearTenTable_multiplier]
  exact mul_two_nearTen

theorem nearTen_maxRow :
    F32.toInt64 (F32.mul (F32.ofInt defaultConfig.MaxRow) nearTenTable.BurstMultiplier)
      = 974 := by
  rw [nearTenTable_multiplier]
  show F32.toInt64 (F32.mul (F32.ofInt 100) (F32.finite nearTen)) = 974
  rw [mul_hundred_nearTen]
  simpa using F32.toInt64_intCast 974 (by norm_num) (by norm_num)

theorem roundingRate_maxRow :
    F32.toInt64 (F32.mul (F32.ofInt defaultConfig.MaxRow) roundingRateTable.BurstMultiplier)
      = 233 := by
  show F32.toInt64 (F32.mul (F32.ofInt 100) (F32.finite nearSevenThirds)) = 233
  rw [mul_hundred_nearSevenThirds, toInt64_eval_233]

theorem roundingRate_rate :
    F32.mul roundingRateTable.SteadyRate roundingRateTable.BurstMultiplier = F32.finite 7 :=
  mul_three_nearSevenThirds

theorem negativeMaxRow_rate :
    F32.mul (firstTable negativeMaxRowConfig).SteadyRate
      (firstTable negativeMaxRowConfig).BurstMultiplier = F32.finite 1 := by
  rw [firstTable_multiplier_one _ rfl]
  show F32.round (2 * (1 / 2)) = _
  rw [show (2 : Rat) * (1 / 2) = 1 by norm_num]
  simpa using F32.round_intCast 1 (by norm_num)

theorem negativeMaxRow_maxRow :
    F32.toInt64 (F32.mul (F32.ofInt negativeMaxRowConfig.MaxRow)
      (firstTable negativeMaxRowConfig).BurstMultiplier) = -1 := by
  rw [firstTable_multiplier_one _ rfl]
  show F32.toInt64 (F32.mul (F32.ofInt (-3)) (F32.finite (1 / 2))) = -1
  rw [mul_neg_three_half, toInt64_eval_neg]

/-- C2, witness of the amended statement.  The default configuration with the
table multiplier `nearTen` (the `float32` nearest to 9.74) in burst phase: the
rate is `2 * nearTen` and the max-row-count is 974.  The steady rate 3 with
the multiplier `nearSevenThirds`: the rate is 7 and the max-row-count 233.
`MaxRow = -3` with the multiplier 1/2: the max-row-count is -1.  The default
configuration in steady phase: the rate is 2 and the max-row-count 100. -/
theorem shape_effective_values_witness :
    shape nearTenTable defaultConfig 10 = Except.ok
      { log := ["Entering burst mode"], currentRate := F32.finite (2 * nearTen)
        maxRow := 974 } ∧
    shape roundingRateTable defaultConfig 10 = Except.ok
      { log := ["Entering burst mode"], currentRate := F32.finite 7, maxRow := 233 } ∧
    shape (firstTable negativeMaxRowConfig) negativeMaxRowConfig 10 = Except.ok
      { log := ["Entering burst mode"], currentRate := F32.finite 1, maxRow := -1 } ∧
    shape nearTenTable defaultConfig 45 = Except.ok
      { log := [], currentRate := F32.finite 2, maxRow := 100 } := by
  refine ⟨?_, ?_, ?_, ?_⟩
  · obtain ⟨s, hs, hb, -⟩ := shape_effective_values nearTenTable defaultConfig 10 (by decide)
    obtain ⟨h1, h2, h3, -⟩ := hb (burst_condition_at_10 _ (by decide) (by decide))
    rw [hs, shaped_eq s _ _ _ h1 (h2.trans nearTen_rate) (h3.trans nearTen_maxRow)]
  · obtain ⟨s, hs, hb, -⟩ :=
      shape_effective_values roundingRateTable defaultConfig 10 (by decide)
    obtain ⟨h1, h2, h3, -⟩ := hb (burst_condition_at_10 _ (by decide) (by decide))
    rw [hs, shaped_eq s _ _ _ h1 (h2.trans roundingRate_rate)
      (h3.trans roundingRate_maxRow)]
  · obtain ⟨s, hs, hb, -⟩ :=
      shape_effective_values (firstTable negativeMaxRowConfig) negativeMaxRowConfig 10
        (by decide)
    obtain ⟨h1, h2, h3, -⟩ := hb (burst_condition_at_10 _ (by decide) (by decide))
    rw [hs, shaped_eq s _ _ _ h1 (h2.trans negativeMaxRow_rate)
      (h3.trans negativeMaxRow_maxRow)]
  · obtain ⟨s, hs, -, hst⟩ := shape_effective_values nearTenTable defaultConfig 45 (by decide)
    obtain ⟨h1, h2, h3⟩ := hst (steady_condition_at_45 _ (by decide) (by decide))
    rw [hs, shaped_eq s _ _ _ h1 h2 h3]
    rfl

/-- C2, counterexample to the claim as stated.  In the default configuration
with the table multiplier `nearTen` the burst branch sets the max-row-count to
974, while `floor(MaxRow * BurstMultiplier) = floor(100 * nearTen) = 973`.
With the steady rate 3 and the multiplier `nearSevenThirds` the burst rate is
7, while the exact product `3 * nearSevenThirds` is below 7.  With
`MaxRow = -3` and the multiplier 1/2 the max-row-count is -1, while
`floor(-3/2) = -2`. -/
theorem shape_burst_values_not_exact :
    (nearTenTable.BurstMultiplier = F32.finite nearTen ∧
      shape nearTenTable defaultConfig 10 = Except.ok
        { log := ["Entering burst mode"], currentRate := F32.finite (2 * nearTen)
          maxRow := 974 } ∧
      ⌊((defaultConfig.MaxRow : Int) : Rat) * nearTen⌋ = 973) ∧
    (roundingRateTable.SteadyRate = F32.finite 3 ∧
      roundingRateTable.BurstMultiplier = F32.finite nearSevenThirds ∧
      shape roundingRateTable defaultConfig 10 = Except.ok
        { log := ["Entering burst mode"], currentRate := F32.finite 7, maxRow := 233 } ∧
      (3 : Rat) * nearSevenThirds < 7) ∧
    ((firstTable negativeMaxRowConfig).BurstMultiplier = F32.finite (1 / 2) ∧
      shape (firstTable negativeMaxRowConfig) negativeMaxRowConfig 10 = Except.ok
        { log := ["Entering burst mode"], currentRate := F32.finite 1, maxRow := -1 } ∧
      ⌊((negativeMaxRowConfig.MaxRow : Int) : Rat) * (1 / 2)⌋ = -2) := by
  refine ⟨⟨nearTenTable_multiplier, ?_, ?_⟩, ⟨rfl, rfl, ?_, ?_⟩,
    ⟨firstTable_multiplier_one _ rfl, ?_, ?_⟩⟩
  · rw [shape_burst_at_10 _ _ (by decide) (by decide), nearTen_rate, nearTen_maxRow]
  · norm_num [defaultConfig, nearTen]
  · rw [shape_burst_at_10 _ _ (by decide) (by decide), roundingRate_maxRow, roundingRate_rate]
  · norm_num [nearSevenThirds]
  · rw [shape_burst_at_10 _ _ (by decide) (by decide), negativeMaxRow_rate,
      negativeMaxRow_maxRow]
  · norm_num [negativeMaxRowConfig, defaultConfig]

/-! ## Pacing -/

theorem pacingInterval_of_trunc_zero (r : F32) (h : F32.toInt64 r = 0) :
    pacingInterval r = Except.error "runtime error: integer divide by zero" := by
  unfold pacingInterval goDiv
  rw [if_pos h]

theorem pacingInterval_of_trunc_ne_zero (r : F32) (h : F32.toInt64 r ≠ 0) :
    pacingInterval r = Except.ok (Int.tdiv Second (F32.toInt64 r)) := by
  unfold pacingInterval goDiv
  rw [if_neg h]

theorem generateRow_ok (cfg : config) (d : RowDraws)
    (hm : wrapInt64 (cfg.PercentageGet + cfg.PercentagePost) < 100) :
    ∃ row, generateRow cfg d = Except.ok row := by
  unfold generateRow weightedHTTPMethod
  rw [if_neg (not_le.mpr hm)]
  exact ⟨_, rfl⟩

theorem generateRows_ok (cfg : config) (rowDraws : Nat → RowDraws)
    (hm : wrapInt64 (cfg.PercentageGet + cfg.PercentagePost) < 100) (n : Nat) :
    ∃ rows, generateRows cfg rowDraws n = Except.ok rows ∧ rows.length = n := by
  induction n with
  | zero => exact ⟨[], rfl, rfl⟩
  | succ i ih =>
    obtain ⟨rows, hrows, hlen⟩ := ih
    obtain ⟨row, hrow⟩ := generateRow_ok cfg (rowDraws i) hm
    refine ⟨rows ++ [row], ?_, by simp [hlen]⟩
    unfold generateRows
    rw [hrows, ok_bind, hrow, ok_bind]
    rfl

theorem writeTableIteration_of_pacing_error (tableCfg : TableConfig) (cfg : config)
    (elapsed : Rat) (rowsDraw : Nat) (rowDraws : Nat → RowDraws) (s : Shaped) (e : String)
    (hs : shape tableCfg cfg elapsed = Except.ok s)
    (hp : pacingInterval s.currentRate = Except.error e) :
    writeTableIteration tableCfg cfg elapsed rowsDraw rowDraws = Except.error e := by
  unfold writeTableIteration
  rw [hs, ok_bind, hp, error_bind]

theorem writeTableIteration_of_pacing_ok (tableCfg : TableConfig) (cfg : config)
    (elapsed : Rat) (rowsDraw : Nat) (rowDraws : Nat → RowDraws) (s : Shaped) (interval : Int)
    (hs : shape tableCfg cfg elapsed = Except.ok s)
    (hp : pacingInterval s.currentRate = Except.ok interval)
    (hm : wrapInt64 (cfg.PercentageGet + cfg.PercentagePost) < 100) :
    ∃ batch, batch.length = (Number cfg.MinRow s.maxRow rowsDraw).toNat ∧
      writeTableIteration tableCfg cfg elapsed rowsDraw rowDraws = Except.ok
        { log := s.log ++ ["Generating " ++ toString (Number cfg.MinRow s.maxRow rowsDraw)
            ++ " rows for table " ++ tableCfg.Name]
          interval := interval
          minRows := cfg.MinRow
          maxRows := s.maxRow
          batch := batch } := by
  obtain ⟨batch, hb, hlen⟩ :=
    generateRows_ok cfg rowDraws hm (Number cfg.MinRow s.maxRow rowsDraw).toNat
  refine ⟨batch, hlen, ?_⟩
  unfold writeTableIteration
  rw [hs, ok_bind, hp, ok_bind]
  show (generateRows cfg rowDraws (Number cfg.MinRow s.maxRow rowsDraw).toNat >>= _) = _
  rw [hb, ok_bind]
  rfl

theorem intOfFloat_le_neg_one (r : Rat) (h : r ≤ -1) : intOfFloat r ≤ -1 := by
  rw [intOfFloat_of_nonpos r (by linarith), Int.ceil_le]
  simpa using h

theorem F32.toInt64_le_neg_one (r : Rat) (h : r ≤ -1) : F32.toInt64 (F32.finite r) ≤ -1 := by
  rw [F32.toInt64_finite]
  split_ifs
  · exact intOfFloat_le_neg_one r h
  · norm_num

theorem tdiv_nonpos_of_neg (a d : Int) (ha : 0 ≤ a) (hd : d ≤ -1) : Int.tdiv a d ≤ 0 := by
  have h : Int.tdiv a d = - Int.tdiv a (-d) := by
    rw [Int.tdiv_neg, neg_neg]
  rw [h, Int.tdiv_eq_ediv ha (by omega)]
  have : 0 ≤ a / (-d) := Int.ediv_nonneg ha (by omega)
  omega

theorem pacingInterval_whole_rate (n : Nat) (hn : 1 ≤ n) (hlt : (n : Int) < 2 ^ 63) :
    pacingInterval (F32.finite (n : Rat)) = Except.ok ⌊(Second : Rat) / (n : Rat)⌋ := by
  have hi : F32.toInt64 (F32.finite (n : Rat)) = (n : Int) := by
    have := F32.toInt64_intCast (n : Int) (by omega) hlt
    simpa using this
  rw [pacingInterval_of_trunc_ne_zero _ (by rw [hi]; omega), hi,
    Int.tdiv_eq_ediv (by decide) (by omega)]
  exact congrArg Except.ok (Rat.floor_intCast_div_natCast Second n).symm

theorem toInt64_five_halves : F32.toInt64 (F32.finite (5 / 2)) = 2 := by
  rw [F32.toInt64_finite]
  norm_num [intOfFloat]
  decide

theorem toInt64_one_half : F32.toInt64 (F32.finite (1 / 2)) = 0 := by
  rw [F32.toInt64_finite]
  norm_num [intOfFloat]
  decide

/-- C3. Evaluation of the pacing step at rates that are not whole numbers.
With `RATE=2.5` in steady phase the effective rate is 5/2, the interval slept
is 500000000 ns (the rate is truncated to 2 before the division), while
`10^9 / (5/2)` is 400000000 ns.  With `RATE=0.5` the effective rate is 1/2,
which truncates to 0, and the iteration panics with a division by zero. -/
theorem pacing_truncates_rate :
    (shape (firstTable fractionalRateConfig) fractionalRateConfig 45
        = Except.ok { log := [], currentRate := F32.finite (5 / 2), maxRow := 100 } ∧
      pacingInterval (F32.finite (5 / 2)) = Except.ok 500000000 ∧
      ⌊(Second : Rat) / (5 / 2)⌋ = 400000000) ∧
    (shape (firstTable slowRateConfig) slowRateConfig 45
        = Except.ok { log := [], currentRate := F32.finite (1 / 2), maxRow := 100 } ∧
      pacingInterval (F32.finite (1 / 2))
        = Except.error "runtime error: integer divide by zero" ∧
      writeTableIteration (firstTable slowRateConfig) slowRateConfig 45 0
        (fun _ => sampleRowDraws) = Except.error "runtime error: integer divide by zero") := by
  have h1 : shape (firstTable fractionalRateConfig) fractionalRateConfig 45
      = Except.ok { log := [], currentRate := F32.finite (5 / 2), maxRow := 100 } :=
    shape_steady_at_45 _ _ (by decide) (by decide)
  have h2 : shape (firstTable slowRateConfig) slowRateConfig 45
      = Except.ok { log := [], currentRate := F32.finite (1 / 2), maxRow := 100 } :=
    shape_steady_at_45 _ _ (by decide) (by decide)
  have h3 : pacingInterval (F32.finite (1 / 2))
      = Except.error "runtime error: integer divide by zero" :=
    pacingInterval_of_trunc_zero _ toInt64_one_half
  refine ⟨⟨h1, ?_, ?_⟩, h2, h3, ?_⟩
  · rw [pacingInterval_of_trunc_ne_zero _ (by rw [toInt64_five_halves]; decide),
      toInt64_five_halves]
    exact congrArg Except.ok (by decide)
  · norm_num [Second]
  · exact writeTableIteration_of_pacing_error _ _ _ _ _ _ _ h2 h3
/-- C4, as amended. Let `r` be the effective rate of an iteration.  If `r = 0`
the pacing step panics with a division by zero and the iteration aborts
there.  If `r` is finite and `r ≤ -1` the pacing step does not abort: it
returns a non-positive interval, which is `-(10^9 / n)` ns when `r = -n` is a
whole number, and when the method percentages are valid the iteration goes on
to generate a batch of the drawn row count and returns. -/
theorem nonpositive_rate_pacing (tableCfg : TableConfig) (cfg : config) (elapsed : Rat)
    (rowsDraw : Nat) (rowDraws : Nat → RowDraws) (s : Shaped)
    (hs : shape tableCfg cfg elapsed = Except.ok s) :
    (s.currentRate = F32.finite 0 →
      pacingInterval s.currentRate = Except.error "runtime error: integer divide by zero" ∧
      writeTableIteration tableCfg cfg elapsed rowsDraw rowDraws
        = Except.error "runtime error: integer divide by zero") ∧
    (∀ r : Rat, s.currentRate = F32.finite r → r ≤ -1 →
      ∃ interval, pacingInterval s.currentRate = Except.ok interval ∧ interval ≤ 0 ∧
        (∀ n : Nat, r = -(n : Rat) → (n : Int) ≤ 2 ^ 63 → interval = -(Second / (n : Int))) ∧
        (wrapInt64 (cfg.PercentageGet + cfg.PercentagePost) < 100 →
          ∃ it, writeTableIteration tableCfg cfg elapsed rowsDraw rowDraws = Except.ok it ∧
            it.interval = interval ∧
            it.batch.length = (Number cfg.MinRow s.maxRow rowsDraw).toNat)) := by
  constructor
  · intro h0
    have hz : F32.toInt64 s.currentRate = 0 := by
      rw [h0]
      simpa using F32.toInt64_intCast 0 (by norm_num) (by norm_num)
    have hp := pacingInterval_of_trunc_zero _ hz
    exact ⟨hp, writeTableIteration_of_pacing_error _ _ _ _ _ _ _ hs hp⟩
  · intro r hr hle
    have hneg : F32.toInt64 s.currentRate ≤ -1 := by
      rw [hr]
      exact F32.toInt64_le_neg_one r hle
    have hp := pacingInterval_of_trunc_ne_zero s.currentRate (by omega)
    refine ⟨_, hp, tdiv_nonpos_of_neg _ _ (by decide) hneg, ?_, fun hm => ?_⟩
    · intro n hn hn63
      have hcast : r = ((-(n : Int) : Int) : Rat) := by
        rw [hn]
        push_cast
        rfl
      have hconv : F32.toInt64 s.currentRate = -(n : Int) := by
        rw [hr, hcast]
        exact F32.toInt64_intCast _ (by omega) (by omega)
      rw [hconv, Int.tdiv_neg, Int.tdiv_eq_ediv (by decide) (by omega)]
    · obtain ⟨batch, hlen, hit⟩ :=
        writeTableIteration_of_pacing_ok tableCfg cfg elapsed rowsDraw rowDraws s _ hs hp hm
      exact ⟨_, hit, rfl, hlen⟩

/-- C4, witness of the amended statement: with `RATE=0` the iteration aborts
at the pacing step; with `RATE=-2` the pacing step returns -500000000 ns. -/
theorem nonpositive_rate_pacing_witness :
    writeTableIteration (firstTable zeroRateConfig) zeroRateConfig 45 0
      (fun _ => sampleRowDraws) = Except.error "runtime error: integer divide by zero" ∧
    pacingInterval (F32.finite (-2)) = Except.ok (-500000000) := by
  have hs0 : shape (firstTable zeroRateConfig) zeroRateConfig 45
      = Except.ok { log := [], currentRate := F32.finite 0, maxRow := 100 } :=
    shape_steady_at_45 _ _ (by decide) (by decide)
  have hs2 : shape (firstTable negativeRateConfig) negativeRateConfig 45
      = Except.ok { log := [], currentRate := F32.finite (-2), maxRow := 100 } :=
    shape_steady_at_45 _ _ (by decide) (by decide)
  refine ⟨((nonpositive_rate_pacing _ _ 45 0 (fun _ => sampleRowDraws) _ hs0).1 rfl).2, ?_⟩
  obtain ⟨interval, hp, -, hn, -⟩ :=
    (nonpositive_rate_pacing _ _ 45 0 (fun _ => sampleRowDraws) _ hs2).2 (-2) rfl (by norm_num)
  have hi : interval = -500000000 := by
    rw [hn 2 (by norm_num) (by norm_num)]
    decide
  rw [← hi]
  exact hp

/-- C4, counterexample to the claim as stated: with `RATE=-2` in steady phase
the effective rate is -2, the pacing step returns the interval -500000000 ns
instead of aborting, and the iteration returns with a batch of 5 rows. -/
theorem negative_rate_not_rejected :
    shape (firstTable negativeRateConfig) negativeRateConfig 45
      = Except.ok { log := [], currentRate := F32.finite (-2), maxRow := 100 } ∧
    pacingInterval (F32.finite (-2)) = Except.ok (-500000000) ∧
    ∃ it, writeTableIteration (firstTable negativeRateConfig) negativeRateConfig 45 0
        (fun _ => sampleRowDraws) = Except.ok it ∧
      it.interval = -500000000 ∧ it.batch.length = 5 := by
  have h1 : shape (firstTable negativeRateConfig) negativeRateConfig 45
      = Except.ok { log := [], currentRate := F32.finite (-2), maxRow := 100 } :=
    shape_steady_at_45 _ _ (by decide) (by decide)
  have hc : F32.toInt64 (F32.finite (-2)) = -2 := by
    simpa using F32.toInt64_intCast (-2) (by norm_num) (by norm_num)
  have h2 : pacingInterval (F32.finite (-2)) = Except.ok (-500000000) := by
    rw [pacingInterval_of_trunc_ne_zero _ (by rw [hc]; decide), hc]
    exact congrArg Except.ok (by decide)
  refine ⟨h1, h2, ?_⟩
  obtain ⟨batch, hlen, hit⟩ :=
    writeTableIteration_of_pacing_ok (firstTable negativeRateConfig) negativeRateConfig 45 0
      (fun _ => sampleRowDraws) _ (-500000000) h1 h2 (by decide)
  exact ⟨_, hit, rfl, by rw [hlen]; decide⟩

/-! ## HTTP method generator -/

theorem methodChain_post_iff (g p u a d roll : Int) :
    methodChain g p u a d roll = some "POST" ↔ g < roll ∧ roll ≤ p := by
  unfold methodChain
  split_ifs <;> simp <;> omega

/-- C5. Evaluation of the threshold chain of `weightedHTTPMethod` on the
default percentages GET=60, POST=30, PUT=PATCH=DELETE=0 over the rolls 0..100:
61 rolls return "GET" and no roll returns "POST", because a roll above
`percentageGet` is compared with `percentagePost` itself and not with the
cumulative threshold `percentageGet + percentagePost`; the roll 75, inside
the POST share 61..90, falls through the chain to the fallback method. -/
theorem methodChain_default_counts :
    chainCount 60 30 0 0 0 "GET" = 61 ∧ chainCount 60 30 0 0 0 "POST" = 0 ∧
    methodChain 60 30 0 0 0 75 = none ∧
    weightedHTTPMethod 60 30 0 0 0 75 "HEAD" = Except.ok "HEAD" := by
  refine ⟨by decide, by decide, by decide, ?_⟩
  unfold weightedHTTPMethod
  rw [if_neg (by decide)]
  rfl

theorem wrapInt64_of_representable (x : Int) (hlo : -2 ^ 63 ≤ x) (hhi : x < 2 ^ 63) :
    wrapInt64 x = x := by
  unfold wrapInt64
  rw [Int.emod_eq_of_lt (by omega) (by omega)]
  omega

theorem methodChain_getD_mem (g p u a d roll : Int) (fallback : String) :
    (methodChain g p u a d roll).getD fallback
      ∈ ["GET", "POST", "PUT", "PATCH", "DELETE", fallback] := by
  unfold methodChain
  split_ifs <;> simp

/-- C6. `weightedHTTPMethod` panics if and only if `percentageGet +
percentagePost >= 100`, and otherwise returns a method name (one of the five
names of the chain or the fallback method), whatever the roll and the values
of the three other percentages.  The sum is Go's `int` sum; for every pair
whose sum is representable in 64 bits it is the mathematical sum. -/
theorem weightedHTTPMethod_panics_iff (g p u a d roll : Int) (fallback : String) :
    (panics (weightedHTTPMethod g p u a d roll fallback) = true ↔ 100 ≤ wrapInt64 (g + p)) ∧
    (wrapInt64 (g + p) < 100 →
      ∃ m, weightedHTTPMethod g p u a d roll fallback = Except.ok m ∧
        m ∈ ["GET", "POST", "PUT", "PATCH", "DELETE", fallback]) ∧
    (-2 ^ 63 ≤ g + p → g + p < 2 ^ 63 →
      (panics (weightedHTTPMethod g p u a d roll fallback) = true ↔ 100 ≤ g + p) ∧
      (g + p < 100 →
        ∃ m, weightedHTTPMethod g p u a d roll fallback = Except.ok m ∧
          m ∈ ["GET", "POST", "PUT", "PATCH", "DELETE", fallback])) := by
  have hA : panics (weightedHTTPMethod g p u a d roll fallback) = true
      ↔ 100 ≤ wrapInt64 (g + p) := by
    unfold weightedHTTPMethod
    by_cases h : wrapInt64 (g + p) ≥ 100
    · rw [if_pos h]; simpa [panics] using h
    · rw [if_neg h]; simpa [panics] using h
  have hB : wrapInt64 (g + p) < 100 →
      ∃ m, weightedHTTPMethod g p u a d roll fallback = Except.ok m ∧
        m ∈ ["GET", "POST", "PUT", "PATCH", "DELETE", fallback] := by
    intro h
    unfold weightedHTTPMethod
    rw [if_neg (not_le.mpr h)]
    exact ⟨_, rfl, methodChain_getD_mem g p u a d roll fallback⟩
  refine ⟨hA, hB, fun hlo hhi => ?_⟩
  rw [wrapInt64_of_representable _ hlo hhi] at hA hB
  exact ⟨hA, hB⟩

/-- C6, witness: the default percentages 60 and 30 with the roll 95 return the
fallback method; the percentages 60 and 40 panic. -/
theorem weightedHTTPMethod_panics_iff_witness :
    (∃ m, weightedHTTPMethod 60 30 0 0 0 95 "HEAD" = Except.ok m ∧
      m ∈ ["GET", "POST", "PUT", "PATCH", "DELETE", "HEAD"]) ∧
    panics (weightedHTTPMethod 60 40 0 0 0 95 "HEAD") = true :=
  ⟨((weightedHTTPMethod_panics_iff 60 30 0 0 0 95 "HEAD").2.2 (by decide) (by decide)).2
      (by decide),
   ((weightedHTTPMethod_panics_iff 60 40 0 0 0 95 "HEAD").2.2 (by decide) (by decide)).1.mpr
      (by decide)⟩

/-! ## Status code generator -/

/-- C7, as amended. `weightedStatusCode` returns 200 when `roll <= p`; when
`roll > p` it returns the value drawn from the fallback pool unchanged, so in
that branch the result is 200 exactly when the value drawn is 200. -/
theorem weightedStatusCode_spec (p roll fallback : Int) :
    (roll ≤ p → weightedStatusCode p roll fallback = 200) ∧
    (p < roll → weightedStatusCode p roll fallback = fallback ∧
      (weightedStatusCode p roll fallback = 200 ↔ fallback = 200)) := by
  unfold weightedStatusCode
  constructor
  · intro h
    rw [if_pos h]
  · intro h
    rw [if_neg (not_le.mpr h)]
    exact ⟨rfl, Iff.rfl⟩

/-- C7, witness of the amended statement: OK-percent 80, with the roll 50 and
with the roll 90 and the fallback draw 404. -/
theorem weightedStatusCode_spec_witness :
    weightedStatusCode 80 50 404 = 200 ∧ weightedStatusCode 80 90 404 = 404 :=
  ⟨(weightedStatusCode_spec 80 50 404).1 (by decide),
   ((weightedStatusCode_spec 80 90 404).2 (by decide)).1⟩

/-- C7, counterexample to the claim as stated: 200 is one of the values of the
fallback pool, and with OK-percent 80 and the roll 90 (above 80) the fallback
draw 200 is returned, so the fallback branch yields 200. -/
theorem weightedStatusCode_fallback_200 :
    (200 : Int) ∈ httpStatusSimplePool ∧ (80 : Int) < 90 ∧
    weightedStatusCode 80 90 200 = 200 := by
  refine ⟨by decide, by decide, by decide⟩

/-! ## Min/max normalization -/

/-- C9. For all integers `min` and `max`, the bounds stored by `checkMinMax`
satisfy `1 <= min' <= max'`, where `min'` and `max'` are the smaller and the
larger of `max(min,1)` and `max(max,1)`; `main` stores them as the path-length
bounds.  The pair (5,1) becomes (1,5), and `min = 0` is raised to 1. -/
theorem checkMinMax_normalizes (min max : Int) (cfg : config) :
    (1 ≤ (checkMinMax min max).1 ∧ (checkMinMax min max).1 ≤ (checkMinMax min max).2 ∧
      (checkMinMax min max).1 = Min.min (Max.max min 1) (Max.max max 1) ∧
      (checkMinMax min max).2 = Max.max (Max.max min 1) (Max.max max 1)) ∧
    ((normalizeConfig cfg).PathMinLength = (checkMinMax cfg.PathMinLength cfg.PathMaxLength).1 ∧
      (normalizeConfig cfg).PathMaxLength
        = (checkMinMax cfg.PathMinLength cfg.PathMaxLength).2) ∧
    checkMinMax 5 1 = (1, 5) ∧ (checkMinMax 0 max).1 = 1 := by
  refine ⟨?_, ⟨rfl, rfl⟩, by decide, ?_⟩
  · unfold checkMinMax
    simp only [Min.min, Max.max]
    split_ifs <;> simp <;> omega
  · unfold checkMinMax
    simp only
    split_ifs <;> simp <;> omega

/-! ## Row-count bounds -/

theorem writeTableIteration_bounds (tableCfg : TableConfig) (cfg : config) (elapsed : Rat)
    (rowsDraw : Nat) (rowDraws : Nat → RowDraws) (it : Iteration)
    (h : writeTableIteration tableCfg cfg elapsed rowsDraw rowDraws = Except.ok it) :
    ∃ s, shape tableCfg cfg elapsed = Except.ok s ∧
      it.minRows = cfg.MinRow ∧ it.maxRows = s.maxRow := by
  unfold writeTableIteration at h
  cases hs : shape tableCfg cfg elapsed with
  | error e => rw [hs, error_bind] at h; cases h
  | ok s =>
    rw [hs, ok_bind] at h
    cases hp : pacingInterval s.currentRate with
    | error e => rw [hp, error_bind] at h; cases h
    | ok interval =>
      rw [hp, ok_bind] at h
      cases hg : generateRows cfg rowDraws (Number cfg.MinRow s.maxRow rowsDraw).toNat with
      | error e =>
        change (generateRows cfg rowDraws (Number cfg.MinRow s.maxRow rowsDraw).toNat >>= _)
          = _ at h
        rw [hg, error_bind] at h; cases h
      | ok batch =>
        change (generateRows cfg rowDraws (Number cfg.MinRow s.maxRow rowsDraw).toNat >>= _)
          = _ at h
        rw [hg, ok_bind] at h
        injection h with h
        subst h
        exact ⟨s, rfl, rfl, rfl⟩

theorem burst_maxRow_ge (N : Int) (m : Rat) (h0 : 0 ≤ N) (hN : N ≤ 2 ^ 24) (hm : 1 ≤ m)
    (hx : (N : Rat) * m < 2 ^ 62) :
    N ≤ F32.toInt64 (F32.mul (F32.ofInt N) (F32.finite m)) := by
  have hof : F32.ofInt N = F32.finite (N : Rat) :=
    F32.round_intCast N (by rw [abs_of_nonneg h0]; exact hN)
  rw [hof]
  show N ≤ F32.toInt64 (F32.round ((N : Rat) * m))
  by_cases hz : N = 0
  · subst hz
    rw [show ((0 : Int) : Rat) * m = 0 by simp, F32.round_zero]
    have : F32.toInt64 (F32.finite 0) = 0 := by
      simpa using F32.toInt64_intCast 0 (by norm_num) (by norm_num)
    omega
  · obtain ⟨r, hr, hlo, hhi⟩ := F32.round_scaled_ge N m (by omega) hN hm hx
    have hr0 : (0 : Rat) ≤ r := le_trans (by exact_mod_cast h0) hlo
    have hfl : N ≤ ⌊r⌋ := Int.le_floor.mpr hlo
    have hfh : ⌊r⌋ < 2 ^ 63 := Int.floor_lt.mpr (by exact_mod_cast hhi)
    rw [hr, F32.toInt64_finite, intOfFloat_of_nonneg r hr0, if_pos ⟨by omega, hfh⟩]
    exact hfl

/-- C10, as amended. Startup normalization leaves `MinRow` and `MaxRow` as
configured.  For every configuration with `MinRow <= MaxRow` and every table
with a non-zero cycle, the shaping step returns and the bounds the row count
is drawn from satisfy `minRows <= effectiveMaxRows` in steady phase, and in
burst phase provided the table's burst multiplier is a finite value at least
1, `0 <= MaxRow <= 2^24` and `MaxRow * BurstMultiplier < 2^62`; every
iteration that reaches the draw uses these bounds. -/
theorem row_bounds_when_ordered (tableCfg : TableConfig) (cfg : config) (elapsed : Rat)
    (hne : tableCfg.CycleDuration ≠ 0)
    (hmm : cfg.MinRow ≤ cfg.MaxRow)
    (hburst : Int.tmod (intOfFloat elapsed) tableCfg.CycleDuration < tableCfg.BurstDuration →
      ∃ m : Rat, tableCfg.BurstMultiplier = F32.finite m ∧ 1 ≤ m ∧
        0 ≤ cfg.MaxRow ∧ cfg.MaxRow ≤ 2 ^ 24 ∧ (cfg.MaxRow : Rat) * m < 2 ^ 62) :
    (normalizeConfig cfg).MinRow = cfg.MinRow ∧ (normalizeConfig cfg).MaxRow = cfg.MaxRow ∧
    ∃ s, shape tableCfg (normalizeConfig cfg) elapsed = Except.ok s ∧
      cfg.MinRow ≤ s.maxRow ∧
      ∀ (rowsDraw : Nat) (rowDraws : Nat → RowDraws) (it : Iteration),
        writeTableIteration tableCfg (normalizeConfig cfg) elapsed rowsDraw rowDraws
          = Except.ok it →
        it.minRows = cfg.MinRow ∧ it.maxRows = s.maxRow ∧ it.minRows ≤ it.maxRows := by
  have hs := shape_of_cycle_ne_zero tableCfg (normalizeConfig cfg) elapsed hne
  have hle : cfg.MinRow ≤
      (if Int.tmod (intOfFloat elapsed) tableCfg.CycleDuration < tableCfg.BurstDuration then
        ({ log := ["Entering burst mode"]
           currentRate := F32.mul tableCfg.SteadyRate tableCfg.BurstMultiplier
           maxRow := F32.toInt64 (F32.mul (F32.ofInt (normalizeConfig cfg).MaxRow)
             tableCfg.BurstMultiplier) } : Shaped)
      else { log := [], currentRate := tableCfg.SteadyRate
             maxRow := (normalizeConfig cfg).MaxRow }).maxRow := by
    by_cases hb : Int.tmod (intOfFloat elapsed) tableCfg.CycleDuration < tableCfg.BurstDuration
    · rw [if_pos hb]
      obtain ⟨m, hm, h1, h0, h24, h62⟩ := hburst hb
      show cfg.MinRow ≤ F32.toInt64 (F32.mul (F32.ofInt cfg.MaxRow) tableCfg.BurstMultiplier)
      rw [hm]
      exact le_trans hmm (burst_maxRow_ge cfg.MaxRow m h0 h24 h1 h62)
    · rw [if_neg hb]
      exact hmm
  refine ⟨rfl, rfl, _, hs, hle, fun rowsDraw rowDraws it hit => ?_⟩
  obtain ⟨s, hs2, hmin, hmax⟩ := writeTableIteration_bounds _ _ _ _ _ _ hit
  rw [hs] at hs2
  injection hs2 with hs2
  subst hs2
  refine ⟨hmin, hmax, ?_⟩
  rw [hmin, hmax]
  exact hle

theorem default_burst_shape :
    shape defaultTable (normalizeConfig defaultConfig) 10 = Except.ok
      { log := ["Entering burst mode"], currentRate := F32.finite 10, maxRow := 500 } := by
  have hm : defaultTable.BurstMultiplier = F32.finite 5 := firstTable_multiplier_ten _ rfl
  have h100 : F32.ofInt 100 = F32.finite 100 := by
    simpa [F32.ofInt] using F32.round_intCast 100 (by norm_num)
  have hr : F32.mul defaultTable.SteadyRate defaultTable.BurstMultiplier = F32.finite 10 := by
    rw [hm]
    simpa using F32.mul_intCast 2 5 (by norm_num)
  have hmax : F32.toInt64 (F32.mul (F32.ofInt (normalizeConfig defaultConfig).MaxRow)
      defaultTable.BurstMultiplier) = 500 := by
    rw [hm]
    show F32.toInt64 (F32.mul (F32.ofInt 100) (F32.finite 5)) = 500
    rw [h100, show F32.mul (F32.finite 100) (F32.finite 5) = F32.finite 500 by
      simpa using F32.mul_intCast 100 5 (by norm_num)]
    simpa using F32.toInt64_intCast 500 (by norm_num) (by norm_num)
  rw [shape_burst_at_10 _ _ (by decide) (by decide), hr, hmax]

theorem pacingInterval_ten : pacingInterval (F32.finite 10) = Except.ok 100000000 := by
  have hc : F32.toInt64 (F32.finite 10) = 10 := by
    simpa using F32.toInt64_intCast 10 (by norm_num) (by norm_num)
  rw [pacingInterval_of_trunc_ne_zero _ (by rw [hc]; decide), hc]
  exact congrArg Except.ok (by decide)

theorem pacingInterval_two : pacingInterval (F32.finite 2) = Except.ok 500000000 := by
  have hc : F32.toInt64 (F32.finite 2) = 2 := by
    simpa using F32.toInt64_intCast 2 (by norm_num) (by norm_num)
  rw [pacingInterval_of_trunc_ne_zero _ (by rw [hc]; decide), hc]
  exact congrArg Except.ok (by decide)

theorem pacingInterval_one : pacingInterval (F32.finite 1) = Except.ok 1000000000 := by
  have hc : F32.toInt64 (F32.finite 1) = 1 := by
    simpa using F32.toInt64_intCast 1 (by norm_num) (by norm_num)
  rw [pacingInterval_of_trunc_ne_zero _ (by rw [hc]; decide), hc]
  exact congrArg Except.ok (by decide)

/-- C10, witness of the amended statement: the default configuration in burst
phase (multiplier 5) draws the row count from the bounds 5 and 500, and the
iteration returns. -/
theorem row_bounds_when_ordered_witness :
    (∃ s, shape defaultTable (normalizeConfig defaultConfig) 10 = Except.ok s ∧
      defaultConfig.MinRow ≤ s.maxRow ∧
      ∀ (rowsDraw : Nat) (rowDraws : Nat → RowDraws) (it : Iteration),
        writeTableIteration defaultTable (normalizeConfig defaultConfig) 10 rowsDraw rowDraws
          = Except.ok it →
        it.minRows = defaultConfig.MinRow ∧ it.maxRows = s.maxRow ∧
          it.minRows ≤ it.maxRows) ∧
    (∃ it, writeTableIteration defaultTable (normalizeConfig defaultConfig) 10 0
        (fun _ => sampleRowDraws) = Except.ok it ∧ it.minRows = 5 ∧ it.maxRows = 500) := by
  obtain ⟨batch, _, hit⟩ :=
    writeTableIteration_of_pacing_ok defaultTable (normalizeConfig defaultConfig) 10 0
      (fun _ => sampleRowDraws) _ 100000000 default_burst_shape pacingInterval_ten (by decide)
  exact ⟨(row_bounds_when_ordered defaultTable defaultConfig 10 (by decide) (by decide)
      (fun _ => ⟨5, firstTable_multiplier_ten _ rfl, by norm_num, by decide, by decide,
        by norm_num [defaultConfig]⟩)).2.2,
    ⟨_, hit, rfl, rfl⟩⟩

/-- C10, counterexample to the claim as stated.  With `MIN_ROW=5, MAX_ROW=3`
startup normalization leaves the two values as they are and a steady-phase
iteration draws the row count from the bounds 5 and 3.  With `MIN_ROW=60,
MAX_ROW=100` and a table multiplier of 1/2, a burst-phase iteration draws it
from the bounds 60 and 50. -/
theorem row_bounds_not_ordered :
    ((normalizeConfig reversedRowsConfig).MinRow = 5 ∧
      (normalizeConfig reversedRowsConfig).MaxRow = 3 ∧
      ∃ it, writeTableIteration (firstTable reversedRowsConfig)
          (normalizeConfig reversedRowsConfig) 45 0 (fun _ => sampleRowDraws) = Except.ok it ∧
        it.minRows = 5 ∧ it.maxRows = 3 ∧ ¬ it.minRows ≤ it.maxRows) ∧
    ((normalizeConfig shrinkingBurstConfig).MinRow ≤ (normalizeConfig shrinkingBurstConfig).MaxRow ∧
      ∃ it, writeTableIteration (firstTable shrinkingBurstConfig)
          (normalizeConfig shrinkingBurstConfig) 10 0 (fun _ => sampleRowDraws) = Except.ok it ∧
        it.minRows = 60 ∧ it.maxRows = 50 ∧ ¬ it.minRows ≤ it.maxRows) := by
  have hs1 : shape (firstTable reversedRowsConfig) (normalizeConfig reversedRowsConfig) 45
      = Except.ok { log := [], currentRate := F32.finite 2, maxRow := 3 } :=
    shape_steady_at_45 _ _ (by decide) (by decide)
  have hm : (firstTable shrinkingBurstConfig).BurstMultiplier = F32.finite (1 / 2) :=
    firstTable_multiplier_one _ rfl
  have hr : F32.mul (firstTable shrinkingBurstConfig).SteadyRate
      (firstTable shrinkingBurstConfig).BurstMultiplier = F32.finite 1 := by
    rw [hm]
    show F32.round (2 * (1 / 2)) = _
    rw [show (2 : Rat) * (1 / 2) = 1 by norm_num]
    simpa using F32.round_intCast 1 (by norm_num)
  have h100 : F32.ofInt 100 = F32.finite 100 := by
    simpa [F32.ofInt] using F32.round_intCast 100 (by norm_num)
  have hmax : F32.toInt64 (F32.mul (F32.ofInt (normalizeConfig shrinkingBurstConfig).MaxRow)
      (firstTable shrinkingBurstConfig).BurstMultiplier) = 50 := by
    rw [hm]
    show F32.toInt64 (F32.mul (F32.ofInt 100) (F32.finite (1 / 2))) = 50
    rw [h100]
    show F32.toInt64 (F32.round (100 * (1 / 2))) = 50
    rw [show (100 : Rat) * (1 / 2) = 50 by norm_num,
      show F32.round 50 = F32.finite 50 by simpa using F32.round_intCast 50 (by norm_num)]
    simpa using F32.toInt64_intCast 50 (by norm_num) (by norm_num)
  have hs2 : shape (firstTable shrinkingBurstConfig) (normalizeConfig shrinkingBurstConfig) 10
      = Except.ok { log := ["Entering burst mode"], currentRate := F32.finite 1
                    maxRow := 50 } := by
    rw [shape_burst_at_10 _ _ (by decide) (by decide), hr, hmax]
  obtain ⟨b1, _, hit1⟩ :=
    writeTableIteration_of_pacing_ok (firstTable reversedRowsConfig)
      (normalizeConfig reversedRowsConfig) 45 0 (fun _ => sampleRowDraws) _ _ hs1
      pacingInterval_two (by decide)
  obtain ⟨b2, _, hit2⟩ :=
    writeTableIteration_of_pacing_ok (firstTable shrinkingBurstConfig)
      (normalizeConfig shrinkingBurstConfig) 10 0 (fun _ => sampleRowDraws) _ _ hs2
      pacingInterval_one (by decide)
  exact ⟨⟨rfl, rfl, _, hit1, rfl, rfl, (by decide : ¬ ((5 : Int) ≤ 3))⟩,
    ⟨by decide, _, hit2, rfl, rfl, (by decide : ¬ ((60 : Int) ≤ 50))⟩⟩

/-! ## Path generator -/

theorem replaceSpaces_append (a b : String) :
    replaceSpaces (a ++ b) = replaceSpaces a ++ replaceSpaces b := by
  apply String.ext
  simp [replaceSpaces, String.data_append, List.flatMap_append]

theorem replaceSpaces_of_no_space (s : String) (h : ' ' ∉ s.data) : replaceSpaces s = s := by
  apply String.ext
  show s.data.flatMap (fun c => if c = ' ' then "%20".data else [c]) = s.data
  generalize s.data = l at h
  induction l with
  | nil => rfl
  | cons c cs ih =>
    have hc : c ≠ ' ' := fun e => h (by simp [e])
    have hcs : ' ' ∉ cs := fun e => h (List.mem_cons_of_mem _ e)
    rw [List.flatMap_cons, if_neg hc, ih hcs]
    rfl

theorem no_space_replaceSpaces (s : String) : ' ' ∉ (replaceSpaces s).data := by
  show ' ' ∉ s.data.flatMap (fun c => if c = ' ' then "%20".data else [c])
  rw [List.mem_flatMap]
  rintro ⟨c, _, hc⟩
  by_cases h : c = ' '
  · rw [if_pos h] at hc
    revert hc
    decide
  · rw [if_neg h] at hc
    exact h (List.mem_singleton.mp hc).symm

theorem RandomString_pathSuffixes_mem (pick : Nat) :
    RandomString pathSuffixes pick ∈ pathSuffixes := by
  unfold RandomString
  have hlt : pick % pathSuffixes.length < pathSuffixes.length :=
    Nat.mod_lt _ (by decide)
  rw [List.getD_eq_getElem _ _ hlt]
  exact List.getElem_mem hlt

theorem pathSuffixes_no_space : ∀ s ∈ pathSuffixes, ' ' ∉ s.data := by
  decide

theorem randomPath_eq (min max : Int) (lenDraw : Nat) (sepPick : Nat → Nat)
    (tok : Nat → String) (sufPick : Nat) :
    randomPath min max lenDraw sepPick tok sufPick
      = "/" ++ replaceSpaces (pathSegments sepPick tok (Number min max lenDraw).toNat)
        ++ RandomString pathSuffixes sufPick := by
  unfold randomPath
  simp only []
  rw [replaceSpaces_append, replaceSpaces_append,
    replaceSpaces_of_no_space "/" (by decide),
    replaceSpaces_of_no_space (RandomString pathSuffixes sufPick)
      (pathSuffixes_no_space _ (RandomString_pathSuffixes_mem sufPick))]

/-- C8. For every pair of bounds, every draw of the segment count, every
sequence of buzzword tokens, every choice of separators and every choice of
suffix, the path returned by `randomPath` contains no space character, starts
with "/" and ends with one of the nine fixed suffixes; and for `min = max = 1`
it is exactly "/" followed by the single token in which every space is
replaced by the three characters "%20" and every other character is kept,
followed by the suffix, with no separator.  The token "process improvement"
gives "/process%20improvement.hmtl", and a three-segment path is
"/big%20data%20cloud/edge.htm". -/
theorem randomPath_format (min max : Int) (lenDraw : Nat) (sepPick : Nat → Nat)
    (tok : Nat → String) (sufPick : Nat) :
    ' ' ∉ (randomPath min max lenDraw sepPick tok sufPick).data ∧
    (∃ rest : String, randomPath min max lenDraw sepPick tok sufPick = "/" ++ rest) ∧
    (∃ suffix ∈ [".hmtl", ".php", ".htm", ".jpg", ".png", ".gif", ".svg", ".css", ".js"],
      ∃ front : String, randomPath min max lenDraw sepPick tok sufPick = front ++ suffix) ∧
    (∃ suffix ∈ [".hmtl", ".php", ".htm", ".jpg", ".png", ".gif", ".svg", ".css", ".js"],
      (randomPath 1 1 lenDraw sepPick tok sufPick).data
        = '/' :: ((tok 0).data.flatMap (fun c => if c = ' ' then ['%', '2', '0'] else [c])
            ++ suffix.data)) ∧
    randomPath 1 1 lenDraw sepPick (fun _ => "process improvement") 0
      = "/process%20improvement.hmtl" ∧
    randomPath 3 3 lenDraw (fun i => i + 2) sampleTokens 2 = "/big%20data%20cloud/edge.htm" := by
  have h1 : (Number 1 1 lenDraw).toNat = 1 := by
    simp [Number]
  have h3 : (Number 3 3 lenDraw).toNat = 3 := by
    simp [Number]
  refine ⟨no_space_replaceSpaces _, ?_, ?_, ?_, ?_, ?_⟩
  · rw [randomPath_eq, String.append_assoc]
    exact ⟨_, rfl⟩
  · rw [randomPath_eq]
    exact ⟨_, RandomString_pathSuffixes_mem sufPick, _, rfl⟩
  · refine ⟨_, RandomString_pathSuffixes_mem sufPick, ?_⟩
    rw [randomPath_eq, h1]
    simp [pathSegments, replaceSpaces, String.data_append]
  · have hseg : pathSegments sepPick (fun _ => "process improvement") 1
        = "process improvement" := by
      simp [pathSegments]
    rw [randomPath_eq, h1, hseg]
    decide
  · rw [randomPath_eq, h3]
    decide
end FakeLogIngester
